import Mathlib

/-!
# ClipTool (clipboard images to animated GIF): a verification development

Shallow embedding of `src/main.go` and `src/image_loader.go`.

Conventions of the embedding.
* Go's `uint8`, `uint16`, `uint32` values are natural numbers; every narrowing
  conversion is written out as a remainder (`uint8 x = x % 256`).
* Go's `int` is modelled by `Int` (pixel coordinates) or `Nat` (counters that never go
  below zero); image dimensions are taken to be far below `2^63`, so no product of the
  layout arithmetic wraps.
* A slice is a `List`; an access the Go runtime would reject raises `Error.panic`.
* Console output (`fmt.Printf`) is not part of the model.
-/

namespace ClipTool

/-! ## Colours and the fixed palette (`src/main.go`, `generatePalette`) -/

/-- Go conversion `uint8(x)`. -/
def uint8 (x : Nat) : Nat := x % 256

/-- Go type `color.RGBA`: four `uint8` channels. -/
structure RGBA where
  R : Nat
  G : Nat
  B : Nat
  A : Nat
deriving DecidableEq, Repr

/-- Zero value of `color.RGBA`; it also stands for the not yet assigned slots of a
palette made by `make(color.Palette, n)`. -/
def RGBA.zero : RGBA := ⟨0, 0, 0, 0⟩

/-- Go type `color.Palette`. -/
abbrev Palette := List RGBA

def rgbLevels : Nat := 6
def rgbStep : Nat := 51
def grayColors : Nat := 40
def totalColors : Nat := 256

/-- State of the two loops of `generatePalette`: the palette slice and `colorIndex`. -/
structure PaletteState where
  palette : Palette
  colorIndex : Nat

/-- One assignment `palette[colorIndex] = c; colorIndex++`. -/
def PaletteState.put (s : PaletteState) (c : RGBA) : PaletteState :=
  { palette := s.palette.set s.colorIndex c, colorIndex := s.colorIndex + 1 }

/-- First loop nest of `generatePalette`: `r` outer, `g` middle, `b` inner. -/
def cubeLoop (s : PaletteState) : PaletteState :=
  (List.range rgbLevels).foldl (fun s r =>
    (List.range rgbLevels).foldl (fun s g =>
      (List.range rgbLevels).foldl (fun s b =>
        s.put { R := uint8 (r * rgbStep), G := uint8 (g * rgbStep),
                B := uint8 (b * rgbStep), A := 255 }) s) s) s

/-- Second loop of `generatePalette`: the grey ramp, with Go's truncating integer
division in `i * 255 / (grayColors - 1)`. -/
def grayLoop (s : PaletteState) : PaletteState :=
  (List.range grayColors).foldl (fun s i =>
    let grayValue := uint8 (i * 255 / (grayColors - 1))
    s.put { R := grayValue, G := grayValue, B := grayValue, A := 255 }) s

/-- Go function `generatePalette`. -/
def generatePalette : Palette :=
  (grayLoop (cubeLoop { palette := List.replicate totalColors RGBA.zero,
                        colorIndex := 0 })).palette

/-! ## Errors and the file system -/

/-- Go `error` values returned by the program, and `panic` for a run-time panic. -/
inductive Error where
  /-- Error passed through from `os.Stat`, `os.ReadFile` or `os.Open`. -/
  | os (msg : String)
  /-- Error of `image.Decode`. -/
  | decode (msg : String)
  /-- `fmt.Errorf("unknown raw data size: %d", size)`. -/
  | unknownRawSize (size : Nat)
  /-- Insufficient-input error of `processAndSave` (minimum, actual count). -/
  | insufficientImages (minImages : Nat) (actual : Nat)
  /-- Error of `encodeGIF` for an empty frame list. -/
  | noFrames
  /-- Error of `encodeGIF` when `gif.EncodeAll` fails. -/
  | gifEncodeFailed (msg : String)
  /-- Error of `setClipboardGIF`. -/
  | setClipboardFailed (msg : String)
  /-- Run-time panic (index or slice bound out of range). -/
  | panic (msg : String)
deriving DecidableEq, Repr

/-- One byte of a file. -/
abbrev Byte := Fin 256

/-- The operating-system calls the program makes, as functions of the path:
`os.Stat(path)` followed by `Size()`, `os.ReadFile(path)`, and `os.Open(path)` (the byte
stream of the opened file); `Except.error` carries the message of the Go error. -/
structure FileSystem where
  stat : String → Except String Nat
  readFile : String → Except String (List Byte)
  openFile : String → Except String (List Byte)

/-! ## Geometry (`image.Point`, `image.Rectangle`) -/

/-- Go type `image.Point`. -/
structure Point where
  X : Int
  Y : Int
deriving DecidableEq, Repr

/-- Go type `image.Rectangle`: contains the points with `Min.X <= X < Max.X` and
`Min.Y <= Y < Max.Y`. -/
structure Rectangle where
  Min : Point
  Max : Point
deriving DecidableEq, Repr

/-- Go function `image.Rect`: the rectangle with the coordinates put in order. -/
def Rect (x0 y0 x1 y1 : Int) : Rectangle :=
  let (x0, x1) := if x0 > x1 then (x1, x0) else (x0, x1)
  let (y0, y1) := if y0 > y1 then (y1, y0) else (y0, y1)
  { Min := ⟨x0, y0⟩, Max := ⟨x1, y1⟩ }

def Rectangle.Dx (r : Rectangle) : Int := r.Max.X - r.Min.X

def Rectangle.Dy (r : Rectangle) : Int := r.Max.Y - r.Min.Y

/-- Go method `Rectangle.Empty`. -/
def Rectangle.Empty (r : Rectangle) : Bool :=
  decide (r.Min.X ≥ r.Max.X) || decide (r.Min.Y ≥ r.Max.Y)

/-- Go variable `image.ZR`. -/
def ZR : Rectangle := ⟨⟨0, 0⟩, ⟨0, 0⟩⟩

/-- Go method `Rectangle.Add`: translation by a point. -/
def Rectangle.Add (r : Rectangle) (p : Point) : Rectangle :=
  { Min := ⟨r.Min.X + p.X, r.Min.Y + p.Y⟩, Max := ⟨r.Max.X + p.X, r.Max.Y + p.Y⟩ }

/-- Go method `Point.Sub`. -/
def Point.Sub (p q : Point) : Point := ⟨p.X - q.X, p.Y - q.Y⟩

/-- Go method `Rectangle.Intersect`: the largest rectangle contained in both, `ZR` when
that is empty. -/
def Rectangle.Intersect (r s : Rectangle) : Rectangle :=
  let r : Rectangle :=
    { Min := ⟨if r.Min.X < s.Min.X then s.Min.X else r.Min.X,
              if r.Min.Y < s.Min.Y then s.Min.Y else r.Min.Y⟩,
      Max := ⟨if r.Max.X > s.Max.X then s.Max.X else r.Max.X,
              if r.Max.Y > s.Max.Y then s.Max.Y else r.Max.Y⟩ }
  if r.Empty then ZR else r

/-- Go method `Point.In`. -/
def Point.In (p : Point) (r : Rectangle) : Bool :=
  decide (r.Min.X ≤ p.X) && decide (p.X < r.Max.X) &&
  decide (r.Min.Y ≤ p.Y) && decide (p.Y < r.Max.Y)

/-! ## Images -/

/-- Go interface `image.Image`, seen through `Bounds()` and `At(x, y)`; the colour is
the 8-bit `color.RGBA` that `color.RGBAModel` converts `At(x, y)` to. -/
structure Image where
  Bounds : Rectangle
  At : Int → Int → RGBA

/-- Go type `image.Gray`: one `uint8` per pixel, row-major in `Pix`. -/
structure Gray where
  Pix : List Nat
  Stride : Int
  Rect : Rectangle
deriving DecidableEq, Repr

/-- Go function `image.NewGray`: a zeroed pixel buffer of `Dx * Dy` bytes. -/
def NewGray (r : Rectangle) : Gray :=
  { Pix := List.replicate (r.Dx * r.Dy).toNat 0, Stride := r.Dx, Rect := r }

/-- Go method `Gray.PixOffset`. -/
def Gray.PixOffset (p : Gray) (x y : Int) : Int :=
  (y - p.Rect.Min.Y) * p.Stride + (x - p.Rect.Min.X)

/-- A `*image.Gray` used as an `image.Image`: `At` is `color.Gray{Y}`, that is the
opaque colour (Y, Y, Y), and `color.Gray{0}` outside the bounds. -/
def Gray.toImage (p : Gray) : Image :=
  { Bounds := p.Rect
    At := fun x y =>
      if (Point.mk x y).In p.Rect then
        let v := p.Pix.getD (p.PixOffset x y).toNat 0
        { R := v, G := v, B := v, A := 255 }
      else { R := 0, G := 0, B := 0, A := 255 } }

/-! ## Raw data images (`src/image_loader.go`) -/

/-- Go struct `rawDataProfile`. -/
structure rawDataProfile where
  name : String
  width : Nat
  height : Nat
  dtype : String
  bits : Nat
deriving DecidableEq, Repr

/-- Go map `rawDataProfiles`, from the file size in bytes to the profile. -/
def rawDataProfiles : List (Nat × rawDataProfile) :=
  [ (43808, { name := "RAW", width := 148, height := 148, dtype := "uint16", bits := 12 }),
    (102400, { name := "BIN", width := 160, height := 160, dtype := "uint32", bits := 16 }) ]

/-- Width in bits of one sample of a profile: the pixel loop of `loadRawDataImage` reads
a `uint16` when `dtype` is "uint16" and a `uint32` otherwise. -/
def rawDataProfile.sampleWidth (profile : rawDataProfile) : Nat :=
  if profile.dtype = "uint16" then 16 else 32

/-- Go function `isRawDataImage`. -/
def isRawDataImage (fs : FileSystem) (filePath : String) : Bool :=
  match fs.stat filePath with
  | .error _ => false
  | .ok size => (rawDataProfiles.lookup size).isSome

/-- Go function `binary.LittleEndian.Uint16`; it panics on fewer than 2 bytes. -/
def littleEndianUint16 (b : List Byte) : Except Error Nat :=
  match b with
  | b0 :: b1 :: _ => .ok (b0.val ||| (b1.val <<< 8))
  | _ => .error (.panic "index out of range")

/-- Go function `binary.LittleEndian.Uint32`; it panics on fewer than 4 bytes. -/
def littleEndianUint32 (b : List Byte) : Except Error Nat :=
  match b with
  | b0 :: b1 :: b2 :: b3 :: _ =>
    .ok (b0.val ||| (b1.val <<< 8) ||| (b2.val <<< 16) ||| (b3.val <<< 24))
  | _ => .error (.panic "index out of range")

/-- Go slice expression `data[lo:]`; it panics when `lo` exceeds the length. -/
def sliceFrom (data : List Byte) (lo : Nat) : Except Error (List Byte) :=
  if lo ≤ data.length then .ok (data.drop lo)
  else .error (.panic "slice bounds out of range")

/-- The sample `rawValue` (a `uint32`) that the loop body of `loadRawDataImage` reads
for pixel `i`. -/
def rawValueAt (profile : rawDataProfile) (data : List Byte) (i : Nat) : Except Error Nat :=
  if profile.dtype = "uint16" then do
    let b ← sliceFrom data (i * 2)
    littleEndianUint16 b
  else do
    let b ← sliceFrom data (i * 4)
    littleEndianUint32 b

/-- Body of the pixel loop of `loadRawDataImage`:
`img.Pix[i] = uint8(rawValue >> (profile.bits - 8))`. -/
def rawPixelStep (profile : rawDataProfile) (data : List Byte) (pix : List Nat) (i : Nat) :
    Except Error (List Nat) := do
  let rawValue ← rawValueAt profile data i
  if i < pix.length then
    pure (pix.set i (uint8 (rawValue >>> (profile.bits - 8))))
  else
    throw (.panic "index out of range")

/-- Go function `loadRawDataImage`; the result is the `*image.Gray` and the format
label. -/
def loadRawDataImage (fs : FileSystem) (filePath : String) : Except Error (Gray × String) :=
  match fs.stat filePath with
  | .error e => .error (.os e)
  | .ok size =>
    match rawDataProfiles.lookup size with
    | none => .error (.unknownRawSize size)
    | some profile =>
      match fs.readFile filePath with
      | .error e => .error (.os e)
      | .ok data =>
        let img := NewGray (Rect 0 0 profile.width profile.height)
        let pixelCount := profile.width * profile.height
        match (List.range pixelCount).foldlM (rawPixelStep profile data) img.Pix with
        | .error e => .error e
        | .ok pix =>
          let format := profile.name ++ "/" ++ toString profile.width ++ "x" ++
            toString profile.height
          .ok ({ img with Pix := pix }, format)

/-! ## Drawing (`image/draw`) and resampling -/

/-- Go conversion `uint(x)` of an `int` on a 64-bit platform. -/
def uint (x : Int) : Nat := (x % 2 ^ 64).toNat

/-- The nil `image.Image`; it stands for a slice element that was never assigned. -/
def nilImage : Image := { Bounds := ZR, At := fun _ _ => RGBA.zero }

/-- Go function `image.NewRGBA`: every pixel is the zero colour. -/
def NewRGBA (r : Rectangle) : Image := { Bounds := r, At := fun _ _ => RGBA.zero }

/-- Go variable `color.White`, converted to `color.RGBA`. -/
def White : RGBA := { R := 255, G := 255, B := 255, A := 255 }

/-- Function `clip` of `image/draw` (no mask): the drawn rectangle `r` is cut down to the
destination bounds and to the source bounds moved by `r.Min - sp`, and `sp` moves along
with `r.Min`. -/
def clip (dstBounds : Rectangle) (r : Rectangle) (srcBounds : Rectangle) (sp : Point) :
    Rectangle × Point :=
  let orig := r.Min
  let r := r.Intersect dstBounds
  let r := r.Intersect (srcBounds.Add (orig.Sub sp))
  let dx := r.Min.X - orig.X
  let dy := r.Min.Y - orig.Y
  (r, ⟨sp.X + dx, sp.Y + dy⟩)

/-- Go call `draw.Draw(dst, r, src, sp, draw.Src)` on an `*image.RGBA` destination: inside
the clipped rectangle every destination pixel is replaced by the source pixel, `r.Min`
being aligned with `sp`; nothing else changes. -/
def drawSrc (dst : Image) (r : Rectangle) (src : Image) (sp : Point) : Image :=
  let (r, sp) := clip dst.Bounds r src.Bounds sp
  if r.Empty then dst
  else
    { dst with
      At := fun x y =>
        if (Point.mk x y).In r then src.At (sp.X + (x - r.Min.X)) (sp.Y + (y - r.Min.Y))
        else dst.At x y }

/-- Go call `draw.Draw(dst, r, &image.Uniform{c}, image.Point{}, draw.Src)`. The library
documents `image.Uniform` as an infinite-sized image of one colour, so only the
destination bounds clip `r`; the bound of 10^9 that the implementation gives a `Uniform`
in each direction is not tracked. -/
def drawUniformSrc (dst : Image) (r : Rectangle) (c : RGBA) : Image :=
  let r := r.Intersect dst.Bounds
  if r.Empty then dst
  else { dst with At := fun x y => if (Point.mk x y).In r then c else dst.At x y }

/-! ## Frame composition (`src/main.go`, `createFrames`) -/

def margin : Int := 10

/-- Go function `createFrames`. The parameter `resize w h img` stands for the call
`resize.Resize(w, h, img, resize.Bilinear)` of the library `github.com/nfnt/resize`. -/
def createFrames (resize : Nat → Nat → Image → Image) (sourceImages : List Image) :
    List Image :=
  match sourceImages with
  | [] => []
  | first :: _ =>
    let firstImageBounds := first.Bounds
    let standardWidth := firstImageBounds.Dx
    let standardHeight := firstImageBounds.Dy
    let resizedImages :=
      sourceImages.map (fun img => resize (uint standardWidth) (uint standardHeight) img)
    let totalColumns : Int := (sourceImages.length : Int) + 1
    let canvasWidth := standardWidth * totalColumns + margin * (totalColumns - 1)
    let canvasHeight := standardHeight
    (List.range sourceImages.length).map (fun (frameIndex : Nat) =>
      let canvas := NewRGBA (Rect 0 0 canvasWidth canvasHeight)
      let canvas := drawUniformSrc canvas canvas.Bounds White
      let canvas := (List.range resizedImages.length).foldl (fun (canvas : Image) (thumbIndex : Nat) =>
        let xPosition := (thumbIndex : Int) * (standardWidth + margin)
        let targetRect := Rect xPosition 0 (xPosition + standardWidth) standardHeight
        drawSrc canvas targetRect (resizedImages.getD thumbIndex nilImage) ⟨0, 0⟩) canvas
      let rightXPosition := (totalColumns - 1) * (standardWidth + margin)
      let rightTargetRect :=
        Rect rightXPosition 0 (rightXPosition + standardWidth) standardHeight
      drawSrc canvas rightTargetRect (resizedImages.getD frameIndex nilImage) ⟨0, 0⟩)

/-- The function `createFrames` with the two draw passes of each frame exchanged: the
active image is drawn into the last column first, the thumbnail loop runs after it. It
is the reference the order of the passes in `createFrames` is compared with. -/
def createFramesActiveFirst (resize : Nat → Nat → Image → Image)
    (sourceImages : List Image) : List Image :=
  match sourceImages with
  | [] => []
  | first :: _ =>
    let firstImageBounds := first.Bounds
    let standardWidth := firstImageBounds.Dx
    let standardHeight := firstImageBounds.Dy
    let resizedImages :=
      sourceImages.map (fun img => resize (uint standardWidth) (uint standardHeight) img)
    let totalColumns : Int := (sourceImages.length : Int) + 1
    let canvasWidth := standardWidth * totalColumns + margin * (totalColumns - 1)
    let canvasHeight := standardHeight
    (List.range sourceImages.length).map (fun (frameIndex : Nat) =>
      let canvas := NewRGBA (Rect 0 0 canvasWidth canvasHeight)
      let canvas := drawUniformSrc canvas canvas.Bounds White
      let rightXPosition := (totalColumns - 1) * (standardWidth + margin)
      let rightTargetRect :=
        Rect rightXPosition 0 (rightXPosition + standardWidth) standardHeight
      let canvas :=
        drawSrc canvas rightTargetRect (resizedImages.getD frameIndex nilImage) ⟨0, 0⟩
      (List.range resizedImages.length).foldl (fun (canvas : Image) (thumbIndex : Nat) =>
        let xPosition := (thumbIndex : Int) * (standardWidth + margin)
        let targetRect := Rect xPosition 0 (xPosition + standardWidth) standardHeight
        drawSrc canvas targetRect (resizedImages.getD thumbIndex nilImage) ⟨0, 0⟩) canvas)

/-! ## Loading (`src/main.go`, `loadImages`; `src/image_loader.go`, `LoadImage`) -/

/-- Go function `image.Decode` with the formats the program registers (JPEG, PNG, BMP),
as a function of the bytes of the stream: the decoded image and the format name, or the
message of the error. -/
abbrev ImageDecode := List Byte → Except String (Image × String)

/-- Go function `loadStandardImage`. -/
def loadStandardImage (fs : FileSystem) (imageDecode : ImageDecode) (filePath : String) :
    Except Error (Image × String) :=
  match fs.openFile filePath with
  | .error e => .error (.os e)
  | .ok file =>
    match imageDecode file with
    | .error e => .error (.decode e)
    | .ok r => .ok r

/-- Go function `LoadImage`. -/
def LoadImage (fs : FileSystem) (imageDecode : ImageDecode) (filePath : String) :
    Except Error (Image × String) :=
  if isRawDataImage fs filePath then
    match loadRawDataImage fs filePath with
    | .error e => .error e
    | .ok (img, format) => .ok (img.toImage, format)
  else loadStandardImage fs imageDecode filePath

/-- Body of the loop of `loadImages`: a path that does not open or does not decode is
skipped (`continue`), any other appends its image. -/
def loadImagesStep (fs : FileSystem) (imageDecode : ImageDecode) (images : List Image)
    (filePath : String) : List Image :=
  match fs.openFile filePath with
  | .error _ => images
  | .ok file =>
    match imageDecode file with
    | .error _ => images
    | .ok (img, _) => images ++ [img]

/-- Go function `loadImages`: the images and the returned `error` (`none` for `nil`). -/
def loadImages (fs : FileSystem) (imageDecode : ImageDecode) (files : List String) :
    List Image × Option Error :=
  let images := files.foldl (loadImagesStep fs imageDecode) []
  (images, none)

/-! ## Encoding (`src/main.go`, `encodeGIF`) -/

def gifDelay : Int := 50

def minImages : Nat := 2

/-- Go type `image.Paletted`, seen through its bounds, its palette and the palette index
of each pixel. -/
structure Paletted where
  Rect : Rectangle
  Palette : Palette
  ColorIndexAt : Int → Int → Nat

/-- Go type `gif.GIF`, restricted to the fields `encodeGIF` sets. -/
structure GIF where
  Image : List Paletted
  Delay : List Int
  LoopCount : Int

/-- Go function `image.NewPaletted`: every pixel has index 0. -/
def NewPaletted (r : Rectangle) (p : Palette) : Paletted :=
  { Rect := r, Palette := p, ColorIndexAt := fun _ _ => 0 }

/-- Function `sqDiff` of `image/draw`: `d := uint32(x - y); return (d * d) >> 2`. -/
def sqDiff (x y : Int) : Nat :=
  let d := ((x - y) % 2 ^ 32).toNat
  ((d * d) % 2 ^ 32) >>> 2

/-- Palette search of `drawPaletted` in `image/draw`: the index of the first palette entry
with the least sum of squared differences to the colour `c`, all channels widened to 16
bits as `color.RGBA.RGBA()` does. The early exit on an exact match does not change the
result. -/
def paletteIndex (palette : Palette) (c : RGBA) : Nat :=
  let wide := fun (v : Nat) => ((v ||| (v <<< 8) : Nat) : Int)
  ((List.range palette.length).foldl (fun (best : Nat × Nat) (index : Nat) =>
    let p := palette.getD index RGBA.zero
    let sum := (sqDiff (wide p.R) (wide c.R) + sqDiff (wide p.G) (wide c.G) +
      sqDiff (wide p.B) (wide c.B) + sqDiff (wide p.A) (wide c.A)) % 2 ^ 32
    if sum < best.2 then (index, sum) else best) (0, 2 ^ 32 - 1)).1

/-- Go call `draw.Src.Draw(dst, r, src, sp)` on an `*image.Paletted` destination: inside
the clipped rectangle every pixel gets the palette index nearest to the source pixel. -/
def drawPalettedSrc (dst : Paletted) (r : Rectangle) (src : Image) (sp : Point) : Paletted :=
  let (r, sp) := clip dst.Rect r src.Bounds sp
  if r.Empty then dst
  else
    { dst with
      ColorIndexAt := fun x y =>
        if (Point.mk x y).In r then
          paletteIndex dst.Palette (src.At (sp.X + (x - r.Min.X)) (sp.Y + (y - r.Min.Y)))
        else dst.ColorIndexAt x y }

/-- The `gif.GIF` value that `encodeGIF` builds and passes to `gif.EncodeAll`. -/
def buildAnimation (frames : List Image) : GIF :=
  let palette := generatePalette
  { Image := frames.map (fun frame =>
      let frameBounds := frame.Bounds
      let palettedFrame := NewPaletted frameBounds palette
      drawPalettedSrc palettedFrame frameBounds frame ⟨0, 0⟩)
    Delay := frames.map (fun _ => gifDelay)
    LoopCount := 0 }

/-- Go function `encodeGIF`; `encodeAll` stands for `gif.EncodeAll` writing into a fresh
buffer: the bytes written, or the message of its error. -/
def encodeGIF (encodeAll : GIF → Except String (List Byte)) (frames : List Image) :
    Except Error (List Byte) :=
  if frames.length = 0 then .error .noFrames
  else
    match encodeAll (buildAnimation frames) with
    | .error e => .error (.gifEncodeFailed e)
    | .ok bytes => .ok bytes

/-! ## The pipeline (`src/main.go`, `processAndSave`) -/

/-- What the pipeline calls outside the program text: the file system, the image
decoders, the resampling library, the GIF serializer, and `setClipboardGIF`, whose body
only writes a temporary file and runs PowerShell and is represented by the `error` it
returns (`none` for `nil`). -/
structure Env where
  fs : FileSystem
  imageDecode : ImageDecode
  resize : Nat → Nat → Image → Image
  encodeAll : GIF → Except String (List Byte)
  setClipboardGIF : List Byte → Option Error

/-- A stage that `processAndSave` has run after loading: composing `images` images,
encoding `frames` frames, publishing `gifData`. -/
inductive Call where
  | createFrames (images : Nat)
  | encodeGIF (frames : Nat)
  | setClipboardGIF (gifData : List Byte)
deriving DecidableEq, Repr

/-- Go function `processAndSave`: the returned `error` (`none` for `nil`), together with
the calls to `createFrames`, `encodeGIF` and `setClipboardGIF` it made, in order. -/
def processAndSave (env : Env) (files : List String) : Option Error × List Call :=
  match loadImages env.fs env.imageDecode files with
  | (_, some err) => (some err, [])
  | (images, none) =>
    if images.length < minImages then
      (some (.insufficientImages minImages images.length), [])
    else
      let frames := createFrames env.resize images
      match encodeGIF env.encodeAll frames with
      | .error err => (some err, [.createFrames images.length, .encodeGIF frames.length])
      | .ok gifData =>
        (env.setClipboardGIF gifData,
          [.createFrames images.length, .encodeGIF frames.length, .setClipboardGIF gifData])

/-- The per-file decode of the batch loader, `os.Open` followed by `image.Decode`: the
image when both succeed. It is the reference `loadImages` is compared with. -/
def decodeFile (fs : FileSystem) (imageDecode : ImageDecode) (filePath : String) :
    Option Image :=
  match fs.openFile filePath with
  | .error _ => none
  | .ok file =>
    match imageDecode file with
    | .error _ => none
    | .ok (img, _) => some img

/-! ## The change fingerprint (`src/main.go`, `calcHash`) -/

/-- UTF-8 encoding of one character, the bytes it contributes to the Go conversion
`[]byte(s)`. -/
def utf8EncodeChar (c : Char) : List Byte :=
  let v := c.toNat
  if v ≤ 0x7f then [Fin.ofNat v]
  else if v ≤ 0x7ff then [Fin.ofNat (0xc0 + v / 64), Fin.ofNat (0x80 + v % 64)]
  else if v ≤ 0xffff then
    [Fin.ofNat (0xe0 + v / 4096), Fin.ofNat (0x80 + v / 64 % 64), Fin.ofNat (0x80 + v % 64)]
  else
    [Fin.ofNat (0xf0 + v / 262144), Fin.ofNat (0x80 + v / 4096 % 64),
     Fin.ofNat (0x80 + v / 64 % 64), Fin.ofNat (0x80 + v % 64)]

/-- Go conversion `[]byte(s)`: the UTF-8 bytes of the string. -/
def stringBytes (s : String) : List Byte := s.data.flatMap utf8EncodeChar

/-- Per-round left-rotation amounts of MD5 (RFC 1321). -/
def md5Shift : List Nat :=
  [7, 12, 17, 22, 7, 12, 17, 22, 7, 12, 17, 22, 7, 12, 17, 22,
   5, 9, 14, 20, 5, 9, 14, 20, 5, 9, 14, 20, 5, 9, 14, 20,
   4, 11, 16, 23, 4, 11, 16, 23, 4, 11, 16, 23, 4, 11, 16, 23,
   6, 10, 15, 21, 6, 10, 15, 21, 6, 10, 15, 21, 6, 10, 15, 21]

/-- Per-round additive constants of MD5 (RFC 1321). -/
def md5Table : List Nat :=
  [0xd76aa478, 0xe8c7b756, 0x242070db, 0xc1bdceee, 0xf57c0faf, 0x4787c62a, 0xa8304613,
   0xfd469501, 0x698098d8, 0x8b44f7af, 0xffff5bb1, 0x895cd7be, 0x6b901122, 0xfd987193,
   0xa679438e, 0x49b40821, 0xf61e2562, 0xc040b340, 0x265e5a51, 0xe9b6c7aa, 0xd62f105d,
   0x02441453, 0xd8a1e681, 0xe7d3fbc8, 0x21e1cde6, 0xc33707d6, 0xf4d50d87, 0x455a14ed,
   0xa9e3e905, 0xfcefa3f8, 0x676f02d9, 0x8d2a4c8a, 0xfffa3942, 0x8771f681, 0x6d9d6122,
   0xfde5380c, 0xa4beea44, 0x4bdecfa9, 0xf6bb4b60, 0xbebfbc70, 0x289b7ec6, 0xeaa127fa,
   0xd4ef3085, 0x04881d05, 0xd9d4d039, 0xe6db99e5, 0x1fa27cf8, 0xc4ac5665, 0xf4292244,
   0x432aff97, 0xab9423a7, 0xfc93a039, 0x655b59c3, 0x8f0ccc92, 0xffeff47d, 0x85845dd1,
   0x6fa87e4f, 0xfe2ce6e0, 0xa3014314, 0x4e0811a1, 0xf7537e82, 0xbd3af235, 0x2ad7d2bb,
   0xeb86d391]

/-- Rotation of a `uint32` to the left by `s` bits. -/
def rotl32 (x s : Nat) : Nat := ((x <<< s) ||| (x >>> (32 - s))) % 2 ^ 32

/-- Bitwise complement of a `uint32`. -/
def not32 (x : Nat) : Nat := x ^^^ 0xffffffff

/-- The four `uint32` chaining words of MD5. -/
structure MD5State where
  a : Nat
  b : Nat
  c : Nat
  d : Nat
deriving DecidableEq, Repr

def md5Init : MD5State := ⟨0x67452301, 0xefcdab89, 0x98badcfe, 0x10325476⟩

/-- One of the 64 rounds of MD5 on the 16 message words `m`. -/
def md5Round (m : List Nat) (st : MD5State) (i : Nat) : MD5State :=
  let f :=
    if i < 16 then (st.b &&& st.c) ||| (not32 st.b &&& st.d)
    else if i < 32 then (st.d &&& st.b) ||| (not32 st.d &&& st.c)
    else if i < 48 then st.b ^^^ st.c ^^^ st.d
    else st.c ^^^ (st.b ||| not32 st.d)
  let g :=
    if i < 16 then i
    else if i < 32 then (5 * i + 1) % 16
    else if i < 48 then (3 * i + 5) % 16
    else (7 * i) % 16
  let sum := (f + st.a + md5Table.getD i 0 + m.getD g 0) % 2 ^ 32
  { a := st.d, d := st.c, c := st.b, b := (st.b + rotl32 sum (md5Shift.getD i 0)) % 2 ^ 32 }

/-- The little-endian number of a list of bytes. -/
def leWord (bs : List Byte) : Nat :=
  bs.foldr (fun b acc => b.val + 256 * acc) 0

/-- The `n` low bytes of `x`, least significant first. -/
def leBytes (n : Nat) (x : Nat) : List Byte :=
  (List.range n).map (fun j => Fin.ofNat (x / 256 ^ j))

/-- MD5 compression of one 64-byte block. -/
def md5Block (st : MD5State) (block : List Byte) : MD5State :=
  let m := (List.range 16).map (fun j => leWord ((block.drop (4 * j)).take 4))
  let r := (List.range 64).foldl (md5Round m) st
  { a := (st.a + r.a) % 2 ^ 32, b := (st.b + r.b) % 2 ^ 32,
    c := (st.c + r.c) % 2 ^ 32, d := (st.d + r.d) % 2 ^ 32 }

/-- MD5 padding: a byte 0x80, zero bytes up to 56 modulo 64, the bit length in 8 bytes. -/
def md5Pad (msg : List Byte) : List Byte :=
  msg ++ [(0x80 : Byte)] ++ List.replicate ((119 - msg.length % 64) % 64) (0 : Byte) ++
    leBytes 8 ((msg.length * 8) % 2 ^ 64)

/-- The 16-byte MD5 digest of a message (RFC 1321), what `Sum(nil)` of the Go package
`crypto/md5` returns for a hasher the bytes `msg` were written to. -/
def md5Sum (msg : List Byte) : List Byte :=
  let padded := md5Pad msg
  let st := (List.range (padded.length / 64)).foldl
    (fun st k => md5Block st ((padded.drop (64 * k)).take 64)) md5Init
  leBytes 4 st.a ++ leBytes 4 st.b ++ leBytes 4 st.c ++ leBytes 4 st.d

/-- Lower-case hexadecimal digit of a number below 16. -/
def hexDigit (n : Nat) : Char := "0123456789abcdef".data.getD n '0'

/-- Go call `fmt.Sprintf("%x", bs)` on a byte slice: two lower-case hexadecimal digits
for each byte. -/
def hexString (bs : List Byte) : String :=
  ⟨bs.flatMap (fun b => [hexDigit (b.val / 16), hexDigit (b.val % 16)])⟩

/-- Go function `calcHash`. The hasher made by `md5.New()` is represented by the bytes
written to it so far: `Write` appends, `Sum(nil)` is the MD5 digest of all of them. -/
def calcHash (files : List String) : String :=
  if files.length = 0 then ""
  else
    let hasher := files.foldl
      (fun (hasher : List Byte) (filePath : String) => hasher ++ stringBytes filePath) []
    hexString (md5Sum hasher)

/-! ## The polling loop (`src/main.go`, `monitorClipboard`) -/

/-- Body of the loop of `monitorClipboard` for one tick. `clipboard` is what
`getClipboardFiles` returned on this tick (the image files and their fingerprint). The
result is the new value of `lastClipboardHash`, and, when the tick ran the pipeline, what
`processAndSave` returned. -/
def monitorTick (env : Env) (lastClipboardHash : String) (clipboard : List String × String) :
    String × Option (Option Error × List Call) :=
  let imageFiles := clipboard.1
  let currentHash := clipboard.2
  if currentHash == lastClipboardHash || decide (imageFiles.length < minImages) then
    (lastClipboardHash, none)
  else
    (currentHash, some (processAndSave env imageFiles))

/-- Go function `monitorClipboard` over a finite run of ticks, starting from the empty
`lastClipboardHash`: the last-seen fingerprint after the run and the outcome of each
tick. -/
def monitorClipboard (env : Env) (ticks : List (List String × String)) :
    String × List (Option (Option Error × List Call)) :=
  ticks.foldl (fun (st : String × List (Option (Option Error × List Call)))
      (clipboard : List String × String) =>
    ((monitorTick env st.1 clipboard).1, st.2 ++ [(monitorTick env st.1 clipboard).2]))
    ("", [])

/-! ## Sample inputs used to instantiate the theorems -/

/-- An image of `w` by `h` pixels of one colour, with bounds (0,0)-(w,h). -/
def solidImage (w h : Nat) (c : RGBA) : Image :=
  { Bounds := ⟨⟨0, 0⟩, ⟨(w : Int), (h : Int)⟩⟩
    At := fun x y =>
      if (Point.mk x y).In ⟨⟨0, 0⟩, ⟨(w : Int), (h : Int)⟩⟩ then c else RGBA.zero }

/-- A resampling function with the shape of `resize.Resize`: nearest-neighbour sampling
into bounds (0,0)-(w,h). -/
def sampleResize (w h : Nat) (img : Image) : Image :=
  { Bounds := ⟨⟨0, 0⟩, ⟨(w : Int), (h : Int)⟩⟩
    At := fun x y =>
      img.At (img.Bounds.Min.X + x * img.Bounds.Dx / (w : Int))
        (img.Bounds.Min.Y + y * img.Bounds.Dy / (h : Int)) }

/-- A 10 by 10 image, all red. -/
def sampleRed : Image := solidImage 10 10 { R := 255, G := 0, B := 0, A := 255 }

/-- A 10 by 10 image, all blue. -/
def sampleBlue : Image := solidImage 10 10 { R := 0, G := 0, B := 255, A := 255 }

/-- A file system in which the empty path does not open and every other path opens to an
empty stream. -/
def sampleFS : FileSystem :=
  { stat := fun _ => .error "no such file",
    readFile := fun _ => .error "no such file",
    openFile := fun path => if path.isEmpty then .error "no such file" else .ok [] }

/-- An environment in which every opened file decodes to `sampleRed` and the later
stages succeed. -/
def sampleEnv : Env :=
  { fs := sampleFS
    imageDecode := fun _ => .ok (sampleRed, "png")
    resize := sampleResize
    encodeAll := fun _ => .ok []
    setClipboardGIF := fun _ => none }

/-- The number a list of bytes denotes when read least significant byte first; the
reference against which the `binary.LittleEndian` readers are compared. -/
def littleEndianValue : List Byte → Nat
  | [] => 0
  | b :: bs => b.val + 256 * littleEndianValue bs

/-- The 43806 zero bytes that follow the first sample of `sampleRawData`. -/
def sampleRawTail : List Byte := List.replicate 43806 0

/-- A 43808-byte file whose first 16-bit sample is 0x1000 and whose other bytes are 0. -/
def sampleRawData : List Byte := 0 :: 16 :: sampleRawTail

/-- A file system in which every path is a file with the bytes `sampleRawData`. -/
def sampleRawFS : FileSystem :=
  { stat := fun _ => .ok 43808, readFile := fun _ => .ok sampleRawData,
    openFile := fun _ => .ok sampleRawData }

/-- A decoder that behaves as `image.Decode` does on a stream starting with none of the
registered magic numbers, which it rejects as of unknown format; a stream that starts
with "BM" decodes to `sampleRed`. -/
def magicDecode : ImageDecode := fun bytes =>
  match bytes with
  | 0x42 :: 0x4d :: _ => .ok (sampleRed, "bmp")
  | _ => .error "image: unknown format"

/-- Closed form of palette entry `i`, against which the loops of `generatePalette` are
evaluated once. -/
def paletteEntry (i : Nat) : RGBA :=
  if i < 216 then { R := 51 * (i / 36), G := 51 * (i / 6 % 6), B := 51 * (i % 6), A := 255 }
  else { R := (i - 216) * 255 / 39, G := (i - 216) * 255 / 39, B := (i - 216) * 255 / 39,
         A := 255 }

end ClipTool

open ClipTool

/-! ## The palette -/

set_option maxRecDepth 1000000 in
theorem generatePalette_eq_map : generatePalette = (List.range 256).map paletteEntry := by
  decide

theorem generatePalette_length : generatePalette.length = 256 := by
  simp [generatePalette_eq_map]

theorem generatePalette_getElem? (i : Nat) (h : i < 256) :
    generatePalette[i]? = some (paletteEntry i) := by
  rw [generatePalette_eq_map, List.getElem?_map, List.getElem?_range h]
  rfl

/-- C1: the palette has exactly 256 entries and, for all r, g, b in 0..5, entry
36*r + 6*g + b is the opaque colour (51*r, 51*g, 51*b). -/
theorem generatePalette_cube :
    generatePalette.length = 256 ∧
    ∀ r g b : Fin 6,
      generatePalette[36 * r.val + 6 * g.val + b.val]? =
        some { R := 51 * r.val, G := 51 * g.val, B := 51 * b.val, A := 255 } := by
  refine ⟨generatePalette_length, fun r g b => ?_⟩
  have hr := r.isLt
  have hg := g.isLt
  have hb := b.isLt
  rw [generatePalette_getElem? _ (by omega)]
  have h1 : (36 * r.val + 6 * g.val + b.val) / 36 = r.val := by omega
  have h2 : (36 * r.val + 6 * g.val + b.val) / 6 % 6 = g.val := by omega
  have h3 : (36 * r.val + 6 * g.val + b.val) % 6 = b.val := by omega
  have h4 : 36 * r.val + 6 * g.val + b.val < 216 := by omega
  simp [paletteEntry, h1, h2, h3, h4]

theorem generatePalette_gray_getElem? (k : Nat) (h : k < 40) :
    generatePalette[216 + k]? =
      some { R := k * 255 / 39, G := k * 255 / 39, B := k * 255 / 39, A := 255 } := by
  rw [generatePalette_getElem? _ (by omega)]
  have h1 : ¬ (216 + k < 216) := by omega
  simp [paletteEntry, h1]

/-- C2 (as stated, refuted): entry 217 (k = 1) is the grey 6, while the nearest integer
to 1 * 255 / 39 = 6.538... is 7. -/
theorem generatePalette_gray_not_round :
    generatePalette[216 + 1]? = some { R := 6, G := 6, B := 6, A := 255 } ∧
    round ((1 : ℚ) * 255 / 39) = 7 ∧
    generatePalette[216 + 1]? ≠
      some { R := (round ((1 : ℚ) * 255 / 39)).toNat, G := (round ((1 : ℚ) * 255 / 39)).toNat,
             B := (round ((1 : ℚ) * 255 / 39)).toNat, A := 255 } := by
  have hround : round ((1 : ℚ) * 255 / 39) = 7 := by
    rw [round_eq, Int.floor_eq_iff]
    norm_num
  have h217 := generatePalette_gray_getElem? 1 (by omega)
  refine ⟨h217, hround, ?_⟩
  rw [hround, h217]
  decide

/-- C2 (amended): for every k in 0..39, entry 216 + k is the grey (v, v, v) with
v = floor(k * 255 / 39), the quotient of Go's truncating integer division. -/
theorem generatePalette_gray_floor (k : Fin 40) :
    generatePalette[216 + k.val]? =
      some { R := ⌊(k.val : ℚ) * 255 / 39⌋₊, G := ⌊(k.val : ℚ) * 255 / 39⌋₊,
             B := ⌊(k.val : ℚ) * 255 / 39⌋₊, A := 255 } := by
  have hfloor : ⌊(k.val : ℚ) * 255 / 39⌋₊ = k.val * 255 / 39 := by
    have := @Nat.floor_div_eq_div ℚ _ _ (k.val * 255) 39
    rw [← this]
    push_cast
    rfl
  rw [hfloor]
  exact generatePalette_gray_getElem? k.val k.isLt

/-- C3: entries 216..255 are greys whose value does not decrease with the index, the
first one is 0 and the last one 255, and the conversion to uint8 never wraps. -/
theorem generatePalette_gray_ramp (i j : Fin 40) (h : i ≤ j) :
    ∃ vi vj : Nat,
      generatePalette[216 + i.val]? = some { R := vi, G := vi, B := vi, A := 255 } ∧
      generatePalette[216 + j.val]? = some { R := vj, G := vj, B := vj, A := 255 } ∧
      vi ≤ vj ∧ vj ≤ 255 ∧
      uint8 (i.val * 255 / (grayColors - 1)) = i.val * 255 / (grayColors - 1) ∧
      generatePalette[216]? = some { R := 0, G := 0, B := 0, A := 255 } ∧
      generatePalette[255]? = some { R := 255, G := 255, B := 255, A := 255 } := by
  have hi := i.isLt
  have hj := j.isLt
  have hij : i.val ≤ j.val := h
  refine ⟨i.val * 255 / 39, j.val * 255 / 39, generatePalette_gray_getElem? _ hi,
    generatePalette_gray_getElem? _ hj, ?_, ?_, ?_, ?_, ?_⟩
  · omega
  · omega
  · simp only [uint8, grayColors]
    omega
  · exact generatePalette_gray_getElem? 0 (by omega)
  · exact generatePalette_gray_getElem? 39 (by omega)

theorem generatePalette_gray_ramp_witness :
    (3 : Fin 40) ≤ 7 ∧
    ∃ vi vj : Nat,
      generatePalette[216 + (3 : Fin 40).val]? = some { R := vi, G := vi, B := vi, A := 255 } ∧
      generatePalette[216 + (7 : Fin 40).val]? = some { R := vj, G := vj, B := vj, A := 255 } ∧
      vi ≤ vj ∧ vj ≤ 255 ∧
      uint8 ((3 : Fin 40).val * 255 / (grayColors - 1)) =
        (3 : Fin 40).val * 255 / (grayColors - 1) ∧
      generatePalette[216]? = some { R := 0, G := 0, B := 0, A := 255 } ∧
      generatePalette[255]? = some { R := 255, G := 255, B := 255, A := 255 } :=
  ⟨by decide, generatePalette_gray_ramp 3 7 (by decide)⟩

/-! ## Raw data images -/

theorem rawDataProfiles_lookup_isSome (size : Nat) :
    (rawDataProfiles.lookup size).isSome = true ↔ size = 43808 ∨ size = 102400 := by
  by_cases h1 : size = 43808
  · subst h1
    simp [rawDataProfiles, List.lookup]
  · by_cases h2 : size = 102400
    · subst h2
      simp [rawDataProfiles, List.lookup]
    · have e1 : (size == 43808) = false := by simpa using h1
      have e2 : (size == 102400) = false := by simpa using h2
      simp [rawDataProfiles, List.lookup, e1, e2, h1, h2]

/-- C5: a file that can be stat-ed is a raw candidate exactly when its byte length is
width * height * (sampleWidth / 8) of a registered profile, that is 43808 or 102400;
every registry key is that product for its own profile; the lengths 43807, 43809,
102399 and 102401 are not raw. -/
theorem isRawDataImage_iff (fs : FileSystem) (filePath : String) (size : Nat)
    (h : fs.stat filePath = .ok size) :
    (isRawDataImage fs filePath = true ↔
      ∃ e ∈ rawDataProfiles, size = e.2.width * e.2.height * (e.2.sampleWidth / 8)) ∧
    (isRawDataImage fs filePath = true ↔ size = 148 * 148 * 2 ∨ size = 160 * 160 * 4) ∧
    (isRawDataImage fs filePath = true ↔ size = 43808 ∨ size = 102400) ∧
    (∀ e ∈ rawDataProfiles, e.1 = e.2.width * e.2.height * (e.2.sampleWidth / 8)) ∧
    (size = 43807 ∨ size = 43809 ∨ size = 102399 ∨ size = 102401 →
      isRawDataImage fs filePath = false) := by
  have hraw : isRawDataImage fs filePath = true ↔ size = 43808 ∨ size = 102400 := by
    simp only [isRawDataImage, h]
    exact rawDataProfiles_lookup_isSome size
  refine ⟨?_, ?_, hraw, ?_, ?_⟩
  · rw [hraw]
    simp [rawDataProfiles, rawDataProfile.sampleWidth]
  · rw [hraw]
  · simp [rawDataProfiles, rawDataProfile.sampleWidth]
  · intro hs
    cases hb : isRawDataImage fs filePath
    · rfl
    · have := hraw.mp hb
      omega

theorem isRawDataImage_iff_witness :
    sampleRawFS.stat "finger.raw" = .ok 43808 ∧
    isRawDataImage sampleRawFS "finger.raw" = true ∧
    (43808 = 43807 ∨ 43808 = 43809 ∨ 43808 = 102399 ∨ 43808 = 102401 →
      isRawDataImage sampleRawFS "finger.raw" = false) :=
  ⟨rfl, (isRawDataImage_iff sampleRawFS "finger.raw" 43808 rfl).2.2.1.mpr (Or.inl rfl),
    (isRawDataImage_iff sampleRawFS "finger.raw" 43808 rfl).2.2.2.2⟩

theorem littleEndianUint16_ok (b : List Byte) (h : 2 ≤ b.length) :
    ∃ v, littleEndianUint16 b = .ok v := by
  match b, h with
  | b0 :: b1 :: _, _ => exact ⟨_, rfl⟩

theorem littleEndianUint32_ok (b : List Byte) (h : 4 ≤ b.length) :
    ∃ v, littleEndianUint32 b = .ok v := by
  match b, h with
  | b0 :: b1 :: b2 :: b3 :: _, _ => exact ⟨_, rfl⟩

/-- Reading sample `i` succeeds when the data holds `i + 1` samples of the profile. -/
theorem rawValueAt_ok (profile : rawDataProfile) (data : List Byte) (i : Nat)
    (h : (i + 1) * (profile.sampleWidth / 8) ≤ data.length) :
    ∃ v, rawValueAt profile data i = .ok v := by
  unfold rawValueAt
  by_cases hd : profile.dtype = "uint16"
  · simp only [rawDataProfile.sampleWidth, hd, if_true] at h
    have hs : i * 2 ≤ data.length := by omega
    obtain ⟨v, hv⟩ := littleEndianUint16_ok (data.drop (i * 2))
      (by rw [List.length_drop]; omega)
    refine ⟨v, ?_⟩
    simp only [hd, if_true, sliceFrom, hs]
    exact hv
  · simp only [rawDataProfile.sampleWidth, hd, if_false] at h
    have hs : i * 4 ≤ data.length := by omega
    obtain ⟨v, hv⟩ := littleEndianUint32_ok (data.drop (i * 4))
      (by rw [List.length_drop]; omega)
    refine ⟨v, ?_⟩
    simp only [hd, if_false, sliceFrom, hs, if_true]
    exact hv

/-- Invariant of the pixel loop of `loadRawDataImage` after `n` iterations. -/
theorem rawPixelLoop_spec (profile : rawDataProfile) (data : List Byte) (pix0 : List Nat)
    (n : Nat) (hread : ∀ i, i < n → ∃ v, rawValueAt profile data i = .ok v)
    (hlen : n ≤ pix0.length) :
    ∃ pix, (List.range n).foldlM (rawPixelStep profile data) pix0 = .ok pix ∧
      pix.length = pix0.length ∧
      (∀ i, i < n → ∃ v, rawValueAt profile data i = .ok v ∧
        pix[i]? = some (uint8 (v >>> (profile.bits - 8)))) ∧
      (∀ i, n ≤ i → pix[i]? = pix0[i]?) := by
  induction n with
  | zero => exact ⟨pix0, rfl, rfl, fun i hi => absurd hi (Nat.not_lt_zero i), fun _ _ => rfl⟩
  | succ n ih =>
    obtain ⟨pix, hfold, hl, hset, hrest⟩ :=
      ih (fun i hi => hread i (Nat.lt_succ_of_lt hi)) (Nat.le_of_succ_le hlen)
    obtain ⟨v, hv⟩ := hread n (Nat.lt_succ_self n)
    have hn : n < pix.length := by omega
    refine ⟨pix.set n (uint8 (v >>> (profile.bits - 8))), ?_, ?_, ?_, ?_⟩
    · rw [List.range_succ, List.foldlM_append, hfold]
      simp only [List.foldlM_cons, List.foldlM_nil, rawPixelStep, hv]
      simp [bind, Except.bind, pure, Except.pure, hn]
    · rw [List.length_set, hl]
    · intro i hi
      by_cases hin : i = n
      · subst hin
        refine ⟨v, hv, ?_⟩
        rw [List.getElem?_set_self hn]
      · obtain ⟨u, hu, hp⟩ := hset i (by omega)
        refine ⟨u, hu, ?_⟩
        rw [List.getElem?_set_ne (fun h => hin h.symm)]
        exact hp
    · intro i hi
      rw [List.getElem?_set_ne (by omega)]
      exact hrest i (by omega)

theorem Rect_of_nonneg (w h : Nat) :
    Rect 0 0 (w : Int) (h : Int) = { Min := ⟨0, 0⟩, Max := ⟨(w : Int), (h : Int)⟩ } := by
  have hw : ¬ ((0 : Int) > (w : Int)) := by omega
  have hh : ¬ ((0 : Int) > (h : Int)) := by omega
  simp [Rect, hw, hh]

theorem NewGray_Pix_length (w h : Nat) :
    (NewGray (Rect 0 0 (w : Int) (h : Int))).Pix.length = w * h := by
  rw [Rect_of_nonneg]
  simp only [NewGray, Rectangle.Dx, Rectangle.Dy, List.length_replicate, sub_zero]
  rw [← Int.natCast_mul, Int.toNat_natCast]

/-- What `loadRawDataImage` returns for a file whose size selects `profile` and whose
bytes hold at least `width * height` samples. -/
theorem loadRawDataImage_spec (fs : FileSystem) (filePath : String) (size : Nat)
    (profile : rawDataProfile) (data : List Byte)
    (hstat : fs.stat filePath = .ok size)
    (hlook : rawDataProfiles.lookup size = some profile)
    (hread : fs.readFile filePath = .ok data)
    (hdata : profile.width * profile.height * (profile.sampleWidth / 8) ≤ data.length) :
    ∃ img format, loadRawDataImage fs filePath = .ok (img, format) ∧
      img.Rect = { Min := ⟨0, 0⟩, Max := ⟨(profile.width : Int), (profile.height : Int)⟩ } ∧
      img.Stride = (profile.width : Int) ∧
      img.Pix.length = profile.width * profile.height ∧
      ∀ i, i < profile.width * profile.height →
        ∃ v, rawValueAt profile data i = .ok v ∧
          img.Pix[i]? = some (uint8 (v >>> (profile.bits - 8))) := by
  have hsamples : ∀ i, i < profile.width * profile.height →
      ∃ v, rawValueAt profile data i = .ok v := by
    intro i hi
    apply rawValueAt_ok
    calc (i + 1) * (profile.sampleWidth / 8)
        ≤ profile.width * profile.height * (profile.sampleWidth / 8) :=
          Nat.mul_le_mul_right _ hi
      _ ≤ data.length := hdata
  obtain ⟨pix, hfold, hl, hset, _⟩ :=
    rawPixelLoop_spec profile data
      (NewGray (Rect 0 0 (profile.width : Int) (profile.height : Int))).Pix
      (profile.width * profile.height) hsamples
      (by rw [NewGray_Pix_length])
  refine ⟨{ NewGray (Rect 0 0 (profile.width : Int) (profile.height : Int)) with Pix := pix },
    profile.name ++ "/" ++ toString profile.width ++ "x" ++ toString profile.height,
    ?_, ?_, ?_, ?_, hset⟩
  · simp only [loadRawDataImage, hstat, hlook, hread, hfold]
  · simp only [NewGray, Rect_of_nonneg]
  · simp only [NewGray, Rect_of_nonneg, Rectangle.Dx, sub_zero]
  · rw [hl, NewGray_Pix_length]

theorem rawDataProfiles_mem (size : Nat) (profile : rawDataProfile)
    (h : (size, profile) ∈ rawDataProfiles) :
    rawDataProfiles.lookup size = some profile ∧
    size = profile.width * profile.height * (profile.sampleWidth / 8) := by
  simp only [rawDataProfiles, List.mem_cons, Prod.mk.injEq, List.mem_singleton,
    List.not_mem_nil, or_false] at h
  rcases h with ⟨rfl, rfl⟩ | ⟨rfl, rfl⟩
  · exact ⟨rfl, rfl⟩
  · exact ⟨rfl, rfl⟩

theorem lor_shiftLeft_eq_add (x b k : Nat) (hx : x < 2 ^ k) :
    x ||| (b <<< k) = x + 2 ^ k * b := by
  rw [Nat.lor_comm, Nat.shiftLeft_eq, Nat.mul_comm b, ← Nat.mul_add_lt_is_or hx, Nat.add_comm]

theorem littleEndianUint16_eq (b0 b1 : Byte) (rest : List Byte) :
    littleEndianUint16 (b0 :: b1 :: rest) = .ok (littleEndianValue [b0, b1]) := by
  have h0 := b0.isLt
  simp only [littleEndianUint16]
  rw [lor_shiftLeft_eq_add _ _ _ (by omega)]
  simp [littleEndianValue]

theorem littleEndianUint32_eq (b0 b1 b2 b3 : Byte) (rest : List Byte) :
    littleEndianUint32 (b0 :: b1 :: b2 :: b3 :: rest) =
      .ok (littleEndianValue [b0, b1, b2, b3]) := by
  have h0 := b0.isLt
  have h1 := b1.isLt
  have h2 := b2.isLt
  have h3 := b3.isLt
  simp only [littleEndianUint32]
  rw [lor_shiftLeft_eq_add b0.val _ 8 (by omega), lor_shiftLeft_eq_add _ _ 16 (by omega),
    lor_shiftLeft_eq_add _ _ 24 (by omega)]
  simp only [littleEndianValue]
  congr 1
  omega

/-- The sample read for pixel `i` is the little-endian value of the `sampleWidth / 8`
bytes that start at byte offset `i * (sampleWidth / 8)`. -/
theorem rawValueAt_eq_littleEndianValue (profile : rawDataProfile) (data : List Byte)
    (i : Nat) (h : (i + 1) * (profile.sampleWidth / 8) ≤ data.length) :
    rawValueAt profile data i =
      .ok (littleEndianValue
        ((data.drop (i * (profile.sampleWidth / 8))).take (profile.sampleWidth / 8))) := by
  unfold rawValueAt
  by_cases hd : profile.dtype = "uint16"
  · simp only [rawDataProfile.sampleWidth, hd, if_true] at h ⊢
    have hs : i * 2 ≤ data.length := by omega
    have hl : 2 ≤ (data.drop (i * 2)).length := by rw [List.length_drop]; omega
    simp only [sliceFrom, hs, if_true]
    match hm : data.drop (i * 2), hl with
    | b0 :: b1 :: rest, _ =>
      show littleEndianUint16 (b0 :: b1 :: rest) = _
      rw [littleEndianUint16_eq]
      rfl
  · simp only [rawDataProfile.sampleWidth, hd, if_false] at h ⊢
    have hs : i * 4 ≤ data.length := by omega
    have hl : 4 ≤ (data.drop (i * 4)).length := by rw [List.length_drop]; omega
    simp only [sliceFrom, hs, if_true]
    match hm : data.drop (i * 4), hl with
    | b0 :: b1 :: b2 :: b3 :: rest, _ =>
      show littleEndianUint32 (b0 :: b1 :: b2 :: b3 :: rest) = _
      rw [littleEndianUint32_eq]
      rfl

theorem sampleRawData_length : sampleRawData.length = 43808 := by
  unfold sampleRawData sampleRawTail
  rw [List.length_cons, List.length_cons, List.length_replicate]

/-- C4 (as stated, refuted): in a 43808-byte file whose first 16-bit little-endian sample
is 0x1000, that sample shifted right by 12 - 8 is 256, but pixel 0 of the decoded image
is 0. -/
theorem loadRawDataImage_pixel_not_shifted_sample :
    ∃ img format, loadRawDataImage sampleRawFS "finger.raw" = .ok (img, format) ∧
      rawValueAt { name := "RAW", width := 148, height := 148, dtype := "uint16", bits := 12 }
        sampleRawData 0 = .ok 4096 ∧
      4096 >>> (12 - 8) = 256 ∧
      img.Pix[0]? = some 0 ∧
      img.Pix[0]? ≠ some (4096 >>> (12 - 8)) := by
  obtain ⟨img, format, hload, _, _, _, hpix⟩ :=
    loadRawDataImage_spec sampleRawFS "finger.raw" 43808
      { name := "RAW", width := 148, height := 148, dtype := "uint16", bits := 12 }
      sampleRawData rfl rfl rfl (by rw [sampleRawData_length]; decide)
  have hsample : rawValueAt
      { name := "RAW", width := 148, height := 148, dtype := "uint16", bits := 12 }
      sampleRawData 0 = .ok 4096 := by
    rw [rawValueAt_eq_littleEndianValue _ _ _ (by rw [sampleRawData_length]; decide)]
    rfl
  obtain ⟨v, hv, hp⟩ := hpix 0 (by decide)
  rw [hsample] at hv
  have hv4096 : v = 4096 := (Except.ok.inj hv).symm
  subst hv4096
  have hp0 : img.Pix[0]? = some 0 := by
    rw [hp]
    decide
  refine ⟨img, format, hload, hsample, by decide, hp0, ?_⟩
  rw [hp0]
  decide

/-- C4 (amended): for every registered raw profile and every file whose byte length is
the registered length, `loadRawDataImage` succeeds with a grey image of the profile's
width and height in which pixel i (row-major) is the little-endian sample at byte offset
i * bytesPerSample, shifted right by bits - 8 and reduced modulo 256. -/
theorem loadRawDataImage_registered (fs : FileSystem) (filePath : String) (size : Nat)
    (profile : rawDataProfile) (data : List Byte)
    (hprofile : (size, profile) ∈ rawDataProfiles)
    (hstat : fs.stat filePath = .ok size)
    (hread : fs.readFile filePath = .ok data)
    (hlen : data.length = size) :
    ∃ img format, loadRawDataImage fs filePath = .ok (img, format) ∧
      img.Rect = { Min := ⟨0, 0⟩, Max := ⟨(profile.width : Int), (profile.height : Int)⟩ } ∧
      img.Rect.Dx = (profile.width : Int) ∧ img.Rect.Dy = (profile.height : Int) ∧
      img.Stride = (profile.width : Int) ∧
      img.Pix.length = profile.width * profile.height ∧
      ∀ i, i < profile.width * profile.height →
        rawValueAt profile data i = .ok (littleEndianValue
          ((data.drop (i * (profile.sampleWidth / 8))).take (profile.sampleWidth / 8))) ∧
        img.Pix[i]? = some ((littleEndianValue
          ((data.drop (i * (profile.sampleWidth / 8))).take (profile.sampleWidth / 8))
            >>> (profile.bits - 8)) % 256) := by
  obtain ⟨hlook, hsize⟩ := rawDataProfiles_mem size profile hprofile
  obtain ⟨img, format, hload, hrect, hstride, hpl, hpix⟩ :=
    loadRawDataImage_spec fs filePath size profile data hstat hlook hread
      (by rw [hlen, hsize])
  refine ⟨img, format, hload, hrect, ?_, ?_, hstride, hpl, ?_⟩
  · rw [hrect]
    simp [Rectangle.Dx]
  · rw [hrect]
    simp [Rectangle.Dy]
  · intro i hi
    have hle : rawValueAt profile data i = .ok (littleEndianValue
        ((data.drop (i * (profile.sampleWidth / 8))).take (profile.sampleWidth / 8))) := by
      apply rawValueAt_eq_littleEndianValue
      rw [hlen, hsize]
      exact Nat.mul_le_mul_right _ hi
    obtain ⟨v, hv, hp⟩ := hpix i hi
    rw [hle] at hv
    have hv2 := Except.ok.inj hv
    subst hv2
    exact ⟨hle, hp⟩

theorem loadRawDataImage_registered_witness :
    ((43808, { name := "RAW", width := 148, height := 148, dtype := "uint16", bits := 12 })
      ∈ rawDataProfiles) ∧
    sampleRawFS.stat "finger.raw" = .ok 43808 ∧
    sampleRawFS.readFile "finger.raw" = .ok sampleRawData ∧
    sampleRawData.length = 43808 ∧
    ∃ img format, loadRawDataImage sampleRawFS "finger.raw" = .ok (img, format) ∧
      img.Pix.length = 148 * 148 ∧ img.Pix[0]? = some 0 := by
  have hmem : ((43808, ⟨"RAW", 148, 148, "uint16", 12⟩) : Nat × rawDataProfile)
      ∈ rawDataProfiles := by
    simp [rawDataProfiles]
  obtain ⟨img, format, hload, _, _, _, _, hlen, hpix⟩ :=
    loadRawDataImage_registered sampleRawFS "finger.raw" 43808 _ sampleRawData hmem rfl rfl
      sampleRawData_length
  refine ⟨hmem, rfl, rfl, sampleRawData_length, img, format, hload, hlen, ?_⟩
  have h0 := (hpix 0 (by decide)).2
  rw [h0]
  rfl

/-! ## Drawing and frame composition -/

theorem drawSrc_Bounds (dst : Image) (r : Rectangle) (src : Image) (sp : Point) :
    (drawSrc dst r src sp).Bounds = dst.Bounds := by
  unfold drawSrc
  simp only
  split <;> rfl

theorem drawUniformSrc_Bounds (dst : Image) (r : Rectangle) (c : RGBA) :
    (drawUniformSrc dst r c).Bounds = dst.Bounds := by
  unfold drawUniformSrc
  simp only
  split <;> rfl

theorem ZR_Empty : ZR.Empty = true := by decide

/-- Membership in a non-empty intersection is membership in both rectangles. -/
theorem In_Intersect (r s : Rectangle) (x y : Int)
    (hne : (r.Intersect s).Empty = false) :
    (Point.mk x y).In (r.Intersect s) = true ↔
      ((Point.mk x y).In r = true ∧ (Point.mk x y).In s = true) := by
  obtain ⟨R, hR⟩ : ∃ R : Rectangle, R =
      { Min := ⟨if r.Min.X < s.Min.X then s.Min.X else r.Min.X,
                if r.Min.Y < s.Min.Y then s.Min.Y else r.Min.Y⟩,
        Max := ⟨if r.Max.X > s.Max.X then s.Max.X else r.Max.X,
                if r.Max.Y > s.Max.Y then s.Max.Y else r.Max.Y⟩ } := ⟨_, rfl⟩
  have key : r.Intersect s = if R.Empty then ZR else R := by
    subst hR
    rfl
  rw [key] at hne ⊢
  by_cases hE : R.Empty = true
  · rw [if_pos hE, ZR_Empty] at hne
    exact absurd hne (by decide)
  · rw [if_neg hE]
    subst hR
    simp only [Point.In, Bool.and_eq_true, decide_eq_true_eq]
    constructor
    · rintro ⟨⟨⟨h1, h2⟩, h3⟩, h4⟩
      split_ifs at h1 h2 h3 h4 <;> omega
    · rintro ⟨⟨⟨⟨h1, h2⟩, h3⟩, h4⟩, ⟨⟨⟨h5, h6⟩, h7⟩, h8⟩⟩
      split_ifs <;> omega

/-- A point in both rectangles makes their intersection non-empty. -/
theorem Intersect_not_Empty (r s : Rectangle) (x y : Int)
    (hr : (Point.mk x y).In r = true) (hs : (Point.mk x y).In s = true) :
    (r.Intersect s).Empty = false := by
  obtain ⟨R, hR⟩ : ∃ R : Rectangle, R =
      { Min := ⟨if r.Min.X < s.Min.X then s.Min.X else r.Min.X,
                if r.Min.Y < s.Min.Y then s.Min.Y else r.Min.Y⟩,
        Max := ⟨if r.Max.X > s.Max.X then s.Max.X else r.Max.X,
                if r.Max.Y > s.Max.Y then s.Max.Y else r.Max.Y⟩ } := ⟨_, rfl⟩
  have key : r.Intersect s = if R.Empty then ZR else R := by
    subst hR
    rfl
  simp only [Point.In, Bool.and_eq_true, decide_eq_true_eq] at hr hs
  obtain ⟨⟨⟨h1, h2⟩, h3⟩, h4⟩ := hr
  obtain ⟨⟨⟨h5, h6⟩, h7⟩, h8⟩ := hs
  have hE : R.Empty = false := by
    subst hR
    simp only [Rectangle.Empty, Bool.or_eq_false_iff, decide_eq_false_iff_not]
    constructor <;> split_ifs <;> omega
  rw [key, hE]
  exact hE

/-- Cutting an empty rectangle leaves an empty rectangle. -/
theorem Intersect_Empty_of_Empty (r s : Rectangle) (h : r.Empty = true) :
    (r.Intersect s).Empty = true := by
  obtain ⟨R, hR⟩ : ∃ R : Rectangle, R =
      { Min := ⟨if r.Min.X < s.Min.X then s.Min.X else r.Min.X,
                if r.Min.Y < s.Min.Y then s.Min.Y else r.Min.Y⟩,
        Max := ⟨if r.Max.X > s.Max.X then s.Max.X else r.Max.X,
                if r.Max.Y > s.Max.Y then s.Max.Y else r.Max.Y⟩ } := ⟨_, rfl⟩
  have key : r.Intersect s = if R.Empty then ZR else R := by
    subst hR
    rfl
  rw [key]
  by_cases hE : R.Empty = true
  · rw [if_pos hE]
    exact ZR_Empty
  · exfalso
    apply hE
    subst hR
    simp only [Rectangle.Empty, Bool.or_eq_true, decide_eq_true_eq] at h ⊢
    rcases h with h | h
    · left
      split_ifs <;> omega
    · right
      split_ifs <;> omega

/-- Pixels of `draw.Draw(dst, r, src, sp, draw.Src)`: a pixel of `r` that lies in the
destination and under the moved source is replaced by the source pixel aligned with it;
every other pixel is kept. -/
theorem drawSrc_At (dst : Image) (r : Rectangle) (src : Image) (sp : Point) (x y : Int) :
    (drawSrc dst r src sp).At x y =
      if (Point.mk x y).In r = true ∧ (Point.mk x y).In dst.Bounds = true ∧
          (Point.mk x y).In (src.Bounds.Add (r.Min.Sub sp)) = true
      then src.At (sp.X + (x - r.Min.X)) (sp.Y + (y - r.Min.Y))
      else dst.At x y := by
  unfold drawSrc clip
  simp only
  by_cases hE : ((r.Intersect dst.Bounds).Intersect
      (src.Bounds.Add (r.Min.Sub sp))).Empty = true
  · rw [if_pos hE]
    rw [if_neg]
    rintro ⟨h1, h2, h3⟩
    have hne1 := Intersect_not_Empty r dst.Bounds x y h1 h2
    have hin1 := (In_Intersect r dst.Bounds x y hne1).mpr ⟨h1, h2⟩
    have hne2 := Intersect_not_Empty _ _ x y hin1 h3
    rw [hE] at hne2
    exact absurd hne2 (by decide)
  · rw [if_neg hE]
    have hE2 : ((r.Intersect dst.Bounds).Intersect
        (src.Bounds.Add (r.Min.Sub sp))).Empty = false := by
      simpa using hE
    have hE1 : (r.Intersect dst.Bounds).Empty = false := by
      cases h : (r.Intersect dst.Bounds).Empty
      · rfl
      · rw [Intersect_Empty_of_Empty _ _ h] at hE2
        exact absurd hE2 (by decide)
    simp only
    by_cases hin : (Point.mk x y).In ((r.Intersect dst.Bounds).Intersect
        (src.Bounds.Add (r.Min.Sub sp))) = true
    · rw [if_pos hin]
      have h12 := (In_Intersect _ _ x y hE2).mp hin
      have h1 := (In_Intersect _ _ x y hE1).mp h12.1
      rw [if_pos ⟨h1.1, h1.2, h12.2⟩]
      congr 1 <;> omega
    · rw [if_neg hin]
      rw [if_neg]
      rintro ⟨h1, h2, h3⟩
      exact hin ((In_Intersect _ _ x y hE2).mpr ⟨(In_Intersect _ _ x y hE1).mpr ⟨h1, h2⟩, h3⟩)

/-- Pixels of a fill with one colour. -/
theorem drawUniformSrc_At (dst : Image) (r : Rectangle) (c : RGBA) (x y : Int) :
    (drawUniformSrc dst r c).At x y =
      if (Point.mk x y).In r = true ∧ (Point.mk x y).In dst.Bounds = true then c
      else dst.At x y := by
  unfold drawUniformSrc
  simp only
  by_cases hE : (r.Intersect dst.Bounds).Empty = true
  · rw [if_pos hE, if_neg]
    rintro ⟨h1, h2⟩
    have hne1 := Intersect_not_Empty r dst.Bounds x y h1 h2
    rw [hE] at hne1
    exact absurd hne1 (by decide)
  · rw [if_neg hE]
    have hE1 : (r.Intersect dst.Bounds).Empty = false := by simpa using hE
    simp only [In_Intersect _ _ x y hE1]

/-- The rectangle of column `k`: `image.Rect(x, 0, x + w, h)` with `x = k * (w + margin)`,
for a reference size `w` by `h` that is not negative. -/
theorem Rect_column (w h : Nat) (k : Int) :
    Rect (k * ((w : Int) + margin)) 0 (k * ((w : Int) + margin) + (w : Int)) (h : Int) =
      { Min := ⟨k * ((w : Int) + margin), 0⟩,
        Max := ⟨k * ((w : Int) + margin) + (w : Int), (h : Int)⟩ } := by
  have hw : ¬ (k * ((w : Int) + margin) > k * ((w : Int) + margin) + (w : Int)) := by omega
  have hh : ¬ ((0 : Int) > (h : Int)) := by omega
  simp [Rect, hw, hh]

theorem In_column (w h : Nat) (k : Int) (x y : Int) :
    (Point.mk x y).In
      (Rect (k * ((w : Int) + margin)) 0 (k * ((w : Int) + margin) + (w : Int)) (h : Int))
        = true ↔
      (k * ((w : Int) + 10) ≤ x ∧ x < k * ((w : Int) + 10) + (w : Int) ∧ 0 ≤ y ∧ y < (h : Int)) := by
  rw [Rect_column]
  simp only [Point.In, Bool.and_eq_true, decide_eq_true_eq, margin]
  tauto

/-- Columns do not overlap: column `c` ends at least `margin` before column `k > c`. -/
theorem column_lt (w : Nat) (c k : Int) (h : c < k) :
    c * ((w : Int) + 10) + (w : Int) + 10 ≤ k * ((w : Int) + 10) := by
  have h1 : (c + 1) * ((w : Int) + 10) ≤ k * ((w : Int) + 10) :=
    mul_le_mul_of_nonneg_right (by omega) (by omega)
  linarith

/-- The thumbnail loop of `createFrames` keeps the bounds of the canvas. -/
theorem thumbLoop_Bounds (resized : List Image) (w h : Nat) (base : Image) (m : Nat) :
    ((List.range m).foldl (fun (canvas : Image) (thumbIndex : Nat) =>
        drawSrc canvas
          (Rect ((thumbIndex : Int) * ((w : Int) + margin)) 0
            ((thumbIndex : Int) * ((w : Int) + margin) + (w : Int)) (h : Int))
          (resized.getD thumbIndex nilImage) ⟨0, 0⟩) base).Bounds = base.Bounds := by
  induction m with
  | zero => rfl
  | succ m ih =>
    rw [List.range_succ, List.foldl_append]
    simp only [List.foldl_cons, List.foldl_nil]
    rw [drawSrc_Bounds, ih]

/-- The thumbnail loop changes no pixel outside the columns it draws. -/
theorem thumbLoop_At_outside (resized : List Image) (w h : Nat) (base : Image) (m : Nat)
    (x y : Int)
    (hout : ∀ k : Nat, k < m →
      ¬ ((k : Int) * ((w : Int) + 10) ≤ x ∧ x < (k : Int) * ((w : Int) + 10) + (w : Int))) :
    ((List.range m).foldl (fun (canvas : Image) (thumbIndex : Nat) =>
        drawSrc canvas
          (Rect ((thumbIndex : Int) * ((w : Int) + margin)) 0
            ((thumbIndex : Int) * ((w : Int) + margin) + (w : Int)) (h : Int))
          (resized.getD thumbIndex nilImage) ⟨0, 0⟩) base).At x y = base.At x y := by
  induction m with
  | zero => rfl
  | succ m ih =>
    rw [List.range_succ, List.foldl_append]
    simp only [List.foldl_cons, List.foldl_nil]
    rw [drawSrc_At, if_neg, ih (fun k hk => hout k (Nat.lt_succ_of_lt hk))]
    rintro ⟨h1, _, _⟩
    have := (In_column w h m x y).mp h1
    exact hout m (Nat.lt_succ_self m) ⟨this.1, this.2.1⟩

/-- After the thumbnail loop has drawn columns `0 .. m-1`, a pixel of column `c < m` shows
the resampled image `c`, when that image has bounds (0,0)-(w,h) and the column lies in
the canvas. -/
theorem thumbLoop_At_column (resized : List Image) (w h : Nat) (base : Image) (m c : Nat)
    (x y : Int) (hc : c < m)
    (hsrc : (resized.getD c nilImage).Bounds = { Min := ⟨0, 0⟩, Max := ⟨(w : Int), (h : Int)⟩ })
    (hbase : (Point.mk x y).In base.Bounds = true)
    (hx0 : (c : Int) * ((w : Int) + 10) ≤ x) (hx1 : x < (c : Int) * ((w : Int) + 10) + (w : Int))
    (hy0 : 0 ≤ y) (hy1 : y < (h : Int)) :
    ((List.range m).foldl (fun (canvas : Image) (thumbIndex : Nat) =>
        drawSrc canvas
          (Rect ((thumbIndex : Int) * ((w : Int) + margin)) 0
            ((thumbIndex : Int) * ((w : Int) + margin) + (w : Int)) (h : Int))
          (resized.getD thumbIndex nilImage) ⟨0, 0⟩) base).At x y =
      (resized.getD c nilImage).At (x - (c : Int) * ((w : Int) + 10)) y := by
  induction m with
  | zero => exact absurd hc (Nat.not_lt_zero c)
  | succ m ih =>
    rw [List.range_succ, List.foldl_append]
    simp only [List.foldl_cons, List.foldl_nil]
    rw [drawSrc_At]
    by_cases hcm : c = m
    · subst hcm
      rw [if_pos]
      · rw [Rect_column]
        simp only [margin]
        congr 1 <;> omega
      · refine ⟨(In_column w h c x y).mpr ⟨hx0, hx1, hy0, hy1⟩, ?_, ?_⟩
        · rw [thumbLoop_Bounds]
          exact hbase
        · rw [hsrc, Rect_column]
          simp only [Rectangle.Add, Point.Sub, Point.In, Bool.and_eq_true, decide_eq_true_eq,
            margin]
          omega
    · have hlt : c < m := by omega
      rw [if_neg, ih hlt]
      rintro ⟨h1, _, _⟩
      have h2 := (In_column w h m x y).mp h1
      have h3 := column_lt w c m (by exact_mod_cast hlt)
      omega

/-- Shape of the result of `createFrames` on a non-empty list whose first image is `w` by
`h`: every frame is one and the same canvas (white fill, then the thumbnail loop) with
the resampled image of its own index drawn into the last column. -/
theorem createFrames_structure (resize : Nat → Nat → Image → Image) (first : Image)
    (rest : List Image) (w h : Nat)
    (hw : first.Bounds.Dx = (w : Int)) (hh : first.Bounds.Dy = (h : Int)) :
    ∃ base : Image,
      base.Bounds = ⟨⟨0, 0⟩,
        ⟨(w : Int) * ((rest.length : Int) + 1 + 1) + 10 * ((rest.length : Int) + 1),
          (h : Int)⟩⟩ ∧
      (∀ x y, (Point.mk x y).In base.Bounds = true → base.At x y = White) ∧
      createFrames resize (first :: rest) =
        (List.range (rest.length + 1)).map (fun (frameIndex : Nat) =>
          drawSrc
            ((List.range
                ((first :: rest).map (fun img => resize (uint w) (uint h) img)).length).foldl
              (fun (canvas : Image) (thumbIndex : Nat) =>
                drawSrc canvas
                  (Rect ((thumbIndex : Int) * ((w : Int) + margin)) 0
                    ((thumbIndex : Int) * ((w : Int) + margin) + (w : Int)) (h : Int))
                  (((first :: rest).map (fun img => resize (uint w) (uint h) img)).getD
                    thumbIndex nilImage) ⟨0, 0⟩) base)
            (Rect (((rest.length + 1 : Nat) : Int) * ((w : Int) + margin)) 0
              (((rest.length + 1 : Nat) : Int) * ((w : Int) + margin) + (w : Int)) (h : Int))
            (((first :: rest).map (fun img => resize (uint w) (uint h) img)).getD
              frameIndex nilImage) ⟨0, 0⟩) := by
  have hW : (0 : Int) ≤ (w : Int) * ((rest.length : Int) + 1 + 1) + 10 * ((rest.length : Int) + 1) := by
    positivity
  have hR : Rect 0 0 ((w : Int) * ((rest.length : Int) + 1 + 1) + 10 * ((rest.length : Int) + 1))
      (h : Int) = ⟨⟨0, 0⟩,
        ⟨(w : Int) * ((rest.length : Int) + 1 + 1) + 10 * ((rest.length : Int) + 1),
          (h : Int)⟩⟩ := by
    have h1 : ¬ ((0 : Int) > (w : Int) * ((rest.length : Int) + 1 + 1) +
        10 * ((rest.length : Int) + 1)) := by omega
    have h2 : ¬ ((0 : Int) > (h : Int)) := by omega
    simp [Rect, h1, h2]
  refine ⟨drawUniformSrc
      (NewRGBA (Rect 0 0
        ((w : Int) * ((rest.length : Int) + 1 + 1) + 10 * ((rest.length : Int) + 1)) (h : Int)))
      (NewRGBA (Rect 0 0
        ((w : Int) * ((rest.length : Int) + 1 + 1) + 10 * ((rest.length : Int) + 1))
        (h : Int))).Bounds White, ?_, ?_, ?_⟩
  · rw [drawUniformSrc_Bounds, hR]
    rfl
  · intro x y hin
    rw [drawUniformSrc_Bounds] at hin
    rw [drawUniformSrc_At, if_pos ⟨hin, hin⟩]
  · simp only [createFrames, hw, hh, List.length_cons, margin, Nat.cast_add, Nat.cast_one,
      add_sub_cancel_right]

theorem resized_getD (resize : Nat → Nat → Image → Image) (imgs : List Image) (w h : Nat)
    (i : Nat) (img : Image) (hi : imgs[i]? = some img) :
    (imgs.map (fun img => resize (uint w) (uint h) img)).getD i nilImage =
      resize (uint w) (uint h) img := by
  rw [List.getD_eq_getElem?_getD, List.getElem?_map, hi]
  rfl

/-- Frame `i` of `createFrames`, pixel by pixel (shared by the layout theorems). -/
theorem createFrames_frame (resize : Nat → Nat → Image → Image) (first : Image)
    (rest : List Image) (w h : Nat)
    (hw : first.Bounds.Dx = (w : Int)) (hh : first.Bounds.Dy = (h : Int))
    (i : Nat) (imgI : Image) (hi : (first :: rest)[i]? = some imgI) :
    ∃ f, (createFrames resize (first :: rest))[i]? = some f ∧
      f.Bounds = ⟨⟨0, 0⟩,
        ⟨(w : Int) * ((rest.length : Int) + 1 + 1) + 10 * ((rest.length : Int) + 1),
          (h : Int)⟩⟩ ∧
      (∀ (c : Nat) (imgC : Image) (x y : Int), (first :: rest)[c]? = some imgC →
        (resize (uint w) (uint h) imgC).Bounds = ⟨⟨0, 0⟩, ⟨(w : Int), (h : Int)⟩⟩ →
        (c : Int) * ((w : Int) + 10) ≤ x → x < (c : Int) * ((w : Int) + 10) + (w : Int) →
        0 ≤ y → y < (h : Int) →
        f.At x y = (resize (uint w) (uint h) imgC).At (x - (c : Int) * ((w : Int) + 10)) y) ∧
      (∀ x y : Int,
        (resize (uint w) (uint h) imgI).Bounds = ⟨⟨0, 0⟩, ⟨(w : Int), (h : Int)⟩⟩ →
        ((rest.length : Int) + 1) * ((w : Int) + 10) ≤ x →
        x < ((rest.length : Int) + 1) * ((w : Int) + 10) + (w : Int) →
        0 ≤ y → y < (h : Int) →
        f.At x y = (resize (uint w) (uint h) imgI).At
          (x - ((rest.length : Int) + 1) * ((w : Int) + 10)) y) ∧
      (∀ x y : Int, (Point.mk x y).In f.Bounds = true →
        (∀ c : Nat, c ≤ rest.length + 1 →
          ¬ ((c : Int) * ((w : Int) + 10) ≤ x ∧ x < (c : Int) * ((w : Int) + 10) + (w : Int))) →
        f.At x y = White) := by
  obtain ⟨base, hb, hwhite, hcf⟩ := createFrames_structure resize first rest w h hw hh
  have hiN : i < rest.length + 1 := by
    have := (List.getElem?_eq_some_iff.mp hi).1
    simpa using this
  have hcast : (((rest.length + 1 : Nat) : Int)) = (rest.length : Int) + 1 := by push_cast; rfl
  have hlen : ((first :: rest).map (fun img => resize (uint w) (uint h) img)).length
      = rest.length + 1 := by simp
  refine ⟨_, by rw [hcf, List.getElem?_map, List.getElem?_range hiN]; rfl, ?_, ?_, ?_, ?_⟩
  · rw [drawSrc_Bounds, thumbLoop_Bounds, hb]
  · intro c imgC x y hc hres hx0 hx1 hy0 hy1
    have hcN : c < rest.length + 1 := by
      have := (List.getElem?_eq_some_iff.mp hc).1
      simpa using this
    have hcol := column_lt w (c : Int) ((rest.length : Int) + 1) (by omega)
    rw [drawSrc_At, if_neg]
    · rw [hlen, thumbLoop_At_column _ w h base _ c x y hcN
        (by rw [resized_getD resize _ w h c imgC hc]; exact hres) ?_ hx0 hx1 hy0 hy1]
      · rw [resized_getD resize _ w h c imgC hc]
      · rw [hb]
        simp only [Point.In, Bool.and_eq_true, decide_eq_true_eq]
        have hc0 : (0 : Int) ≤ (c : Int) * ((w : Int) + 10) := by positivity
        refine ⟨⟨⟨?_, ?_⟩, hy0⟩, hy1⟩
        · omega
        · linarith
    · rintro ⟨h1, _, _⟩
      rw [hcast] at h1
      have h2 := (In_column w h _ x y).mp h1
      omega
  · intro x y hres hx0 hx1 hy0 hy1
    rw [drawSrc_At, if_pos]
    · rw [resized_getD resize _ w h i imgI hi, hcast, Rect_column]
      simp only [margin]
      congr 1 <;> omega
    · rw [hcast]
      refine ⟨(In_column w h _ x y).mpr ⟨hx0, hx1, hy0, hy1⟩, ?_, ?_⟩
      · rw [thumbLoop_Bounds, hb]
        simp only [Point.In, Bool.and_eq_true, decide_eq_true_eq]
        have hc0 : (0 : Int) ≤ ((rest.length : Int) + 1) * ((w : Int) + 10) := by positivity
        refine ⟨⟨⟨?_, ?_⟩, hy0⟩, hy1⟩
        · omega
        · linarith
      · rw [resized_getD resize _ w h i imgI hi, hres, Rect_column]
        simp only [Rectangle.Add, Point.Sub, Point.In, Bool.and_eq_true, decide_eq_true_eq,
          margin]
        omega
  · intro x y hin hout
    rw [drawSrc_Bounds, thumbLoop_Bounds] at hin
    rw [drawSrc_At, if_neg]
    · rw [thumbLoop_At_outside _ w h base _ x y ?_]
      · exact hwhite x y hin
      · intro k hk
        rw [hlen] at hk
        exact hout k (by omega)
    · rintro ⟨h1, _, _⟩
      have h2 := (In_column w h _ x y).mp h1
      apply hout (rest.length + 1) (le_refl _)
      rw [hcast] at h2 ⊢
      exact ⟨h2.1, h2.2.1⟩

/-- C6: for a non-empty list of N images whose first image is w by h, `createFrames`
returns N frames, frame i being the shared thumbnail canvas with resampled image i drawn
last, each with bounds (0,0)-(w*(N+1) + 10*N, h); two 10 by 10 images give 50 by 10; the
empty list gives no frames. -/
theorem createFrames_count_and_size (resize : Nat → Nat → Image → Image) (first : Image)
    (rest : List Image) (w h : Nat)
    (hw : first.Bounds.Dx = (w : Int)) (hh : first.Bounds.Dy = (h : Int)) :
    (createFrames resize (first :: rest)).length = (first :: rest).length ∧
    (∀ f ∈ createFrames resize (first :: rest),
      f.Bounds = ⟨⟨0, 0⟩, ⟨(w : Int) * (((first :: rest).length : Int) + 1) +
        10 * ((first :: rest).length : Int), (h : Int)⟩⟩ ∧
      f.Bounds.Dx = (w : Int) * (((first :: rest).length : Int) + 1) +
        10 * ((first :: rest).length : Int) ∧
      f.Bounds.Dy = (h : Int)) ∧
    (∃ (canvas : Image) (rightRect : Rectangle), ∀ (i : Nat) (img : Image),
      (first :: rest)[i]? = some img →
      (createFrames resize (first :: rest))[i]? =
        some (drawSrc canvas rightRect (resize (uint w) (uint h) img) ⟨0, 0⟩)) ∧
    ((first :: rest).length = 2 → w = 10 → h = 10 →
      ∀ f ∈ createFrames resize (first :: rest), f.Bounds.Dx = 50 ∧ f.Bounds.Dy = 10) ∧
    createFrames resize [] = [] := by
  obtain ⟨base, hb, _, hcf⟩ := createFrames_structure resize first rest w h hw hh
  have hN : (((first :: rest).length : Nat) : Int) = (rest.length : Int) + 1 := by simp
  have hbounds : ∀ f ∈ createFrames resize (first :: rest),
      f.Bounds = ⟨⟨0, 0⟩, ⟨(w : Int) * (((first :: rest).length : Int) + 1) +
        10 * ((first :: rest).length : Int), (h : Int)⟩⟩ := by
    intro f hf
    rw [hcf, List.mem_map] at hf
    obtain ⟨k, _, rfl⟩ := hf
    rw [drawSrc_Bounds, thumbLoop_Bounds, hb, hN]
  refine ⟨by rw [hcf]; simp, ?_, ?_, ?_, rfl⟩
  · intro f hf
    have hfb := hbounds f hf
    refine ⟨hfb, ?_, ?_⟩
    · rw [hfb]
      simp [Rectangle.Dx]
    · rw [hfb]
      simp [Rectangle.Dy]
  · refine ⟨(List.range
        ((first :: rest).map (fun img => resize (uint w) (uint h) img)).length).foldl
        (fun (canvas : Image) (thumbIndex : Nat) =>
          drawSrc canvas
            (Rect ((thumbIndex : Int) * ((w : Int) + margin)) 0
              ((thumbIndex : Int) * ((w : Int) + margin) + (w : Int)) (h : Int))
            (((first :: rest).map (fun img => resize (uint w) (uint h) img)).getD
              thumbIndex nilImage) ⟨0, 0⟩) base,
      Rect (((rest.length + 1 : Nat) : Int) * ((w : Int) + margin)) 0
        (((rest.length + 1 : Nat) : Int) * ((w : Int) + margin) + (w : Int)) (h : Int),
      fun i img hi => ?_⟩
    have hiN : i < rest.length + 1 := by
      have := (List.getElem?_eq_some_iff.mp hi).1
      simpa using this
    rw [hcf, List.getElem?_map, List.getElem?_range hiN,
      ← resized_getD resize (first :: rest) w h i img hi]
    rfl
  · intro h2 hw10 hh10 f hf
    have hfb := hbounds f hf
    rw [h2] at hfb
    subst hw10 hh10
    rw [hfb]
    simp [Rectangle.Dx, Rectangle.Dy]

theorem createFrames_count_and_size_witness :
    sampleRed.Bounds.Dx = ((10 : Nat) : Int) ∧ sampleRed.Bounds.Dy = ((10 : Nat) : Int) ∧
    (createFrames sampleResize [sampleRed, sampleBlue]).length = 2 ∧
    ∀ f ∈ createFrames sampleResize [sampleRed, sampleBlue],
      f.Bounds.Dx = 50 ∧ f.Bounds.Dy = 10 :=
  ⟨by decide, by decide,
    (createFrames_count_and_size sampleResize sampleRed [sampleBlue] 10 10
      (by decide) (by decide)).1,
    (createFrames_count_and_size sampleResize sampleRed [sampleBlue] 10 10
      (by decide) (by decide)).2.2.2.1 rfl rfl rfl⟩

/-- C7: in frame i of `createFrames`, built from N images resampled to the first image's
size w by h, a pixel of column c < N is pixel (x - c*(w+10), y) of resampled image c, a
pixel of the final column is pixel (x - N*(w+10), y) of resampled image i, and every
other pixel of the canvas is opaque white. -/
theorem createFrames_layout (resize : Nat → Nat → Image → Image) (first : Image)
    (rest : List Image) (w h : Nat)
    (hw : first.Bounds.Dx = (w : Int)) (hh : first.Bounds.Dy = (h : Int))
    (hres : ∀ img ∈ first :: rest,
      (resize (uint w) (uint h) img).Bounds = ⟨⟨0, 0⟩, ⟨(w : Int), (h : Int)⟩⟩)
    (i : Nat) (imgI : Image) (hi : (first :: rest)[i]? = some imgI) :
    ∃ f, (createFrames resize (first :: rest))[i]? = some f ∧
      (∀ (c : Nat) (imgC : Image) (x y : Int), (first :: rest)[c]? = some imgC →
        (c : Int) * ((w : Int) + 10) ≤ x → x < (c : Int) * ((w : Int) + 10) + (w : Int) →
        0 ≤ y → y < (h : Int) →
        f.At x y = (resize (uint w) (uint h) imgC).At (x - (c : Int) * ((w : Int) + 10)) y) ∧
      (∀ x y : Int,
        ((first :: rest).length : Int) * ((w : Int) + 10) ≤ x →
        x < ((first :: rest).length : Int) * ((w : Int) + 10) + (w : Int) →
        0 ≤ y → y < (h : Int) →
        f.At x y = (resize (uint w) (uint h) imgI).At
          (x - ((first :: rest).length : Int) * ((w : Int) + 10)) y) ∧
      (∀ x y : Int, (Point.mk x y).In f.Bounds = true →
        (∀ c : Nat, c ≤ (first :: rest).length →
          ¬ ((c : Int) * ((w : Int) + 10) ≤ x ∧ x < (c : Int) * ((w : Int) + 10) + (w : Int))) →
        f.At x y = White ∧ White = { R := 255, G := 255, B := 255, A := 255 }) := by
  obtain ⟨f, hf, _, hcol, hlast, hmargin⟩ :=
    createFrames_frame resize first rest w h hw hh i imgI hi
  have hN : (((first :: rest).length : Nat) : Int) = (rest.length : Int) + 1 := by simp
  refine ⟨f, hf, ?_, ?_, ?_⟩
  · intro c imgC x y hc
    exact hcol c imgC x y hc (hres imgC (List.getElem?_mem hc))
  · intro x y
    rw [hN]
    exact hlast x y (hres imgI (List.getElem?_mem hi))
  · intro x y hin hout
    exact ⟨hmargin x y hin hout, rfl⟩

theorem createFrames_layout_witness :
    sampleRed.Bounds.Dx = ((10 : Nat) : Int) ∧ sampleRed.Bounds.Dy = ((10 : Nat) : Int) ∧
    (∀ img ∈ [sampleRed, sampleBlue],
      (sampleResize (uint ((10 : Nat) : Int)) (uint ((10 : Nat) : Int)) img).Bounds =
        ⟨⟨0, 0⟩, ⟨((10 : Nat) : Int), ((10 : Nat) : Int)⟩⟩) ∧
    [sampleRed, sampleBlue][1]? = some sampleBlue ∧
    ∃ f, (createFrames sampleResize [sampleRed, sampleBlue])[1]? = some f ∧
      f.At 5 3 = { R := 255, G := 0, B := 0, A := 255 } ∧
      f.At 25 3 = { R := 0, G := 0, B := 255, A := 255 } ∧
      f.At 45 3 = { R := 0, G := 0, B := 255, A := 255 } ∧
      f.At 15 3 = { R := 255, G := 255, B := 255, A := 255 } := by
  have hres : ∀ img ∈ [sampleRed, sampleBlue],
      (sampleResize (uint ((10 : Nat) : Int)) (uint ((10 : Nat) : Int)) img).Bounds =
        ⟨⟨0, 0⟩, ⟨((10 : Nat) : Int), ((10 : Nat) : Int)⟩⟩ := by
    intro img _
    rfl
  obtain ⟨f, hf, hcol, hlast, hmargin⟩ :=
    createFrames_layout sampleResize sampleRed [sampleBlue] 10 10 (by decide) (by decide)
      hres 1 sampleBlue rfl
  refine ⟨by decide, by decide, hres, rfl, f, hf, ?_, ?_, ?_, ?_⟩
  · rw [hcol 0 sampleRed 5 3 rfl (by decide) (by decide) (by decide) (by decide)]
    decide
  · rw [hcol 1 sampleBlue 25 3 rfl (by decide) (by decide) (by decide) (by decide)]
    decide
  · rw [hlast 45 3 (by decide) (by decide) (by decide) (by decide)]
    decide
  · have hb := (createFrames_frame sampleResize sampleRed [sampleBlue] 10 10 (by decide)
      (by decide) 1 sampleBlue rfl)
    obtain ⟨g, hg, hgb, _⟩ := hb
    rw [hf] at hg
    have hfg : f = g := Option.some.inj hg
    subst hfg
    refine (hmargin 15 3 ?_ ?_).1
    · rw [hgb]
      decide
    · intro c hc
      have hc2 : c ≤ 2 := hc
      interval_cases c <;> decide

/-- C8: two frames i and j of one `createFrames` result have the same bounds and the same
pixel at every (x, y) whose x is outside the final column; when the resampled images i
and j are equal the two frames are equal, so identical inputs give identical frames. -/
theorem createFrames_frames_agree (resize : Nat → Nat → Image → Image) (first : Image)
    (rest : List Image) (w h : Nat)
    (hw : first.Bounds.Dx = (w : Int)) (hh : first.Bounds.Dy = (h : Int))
    (i j : Nat) (imgI imgJ : Image)
    (hi : (first :: rest)[i]? = some imgI) (hj : (first :: rest)[j]? = some imgJ) :
    ∃ fi fj, (createFrames resize (first :: rest))[i]? = some fi ∧
      (createFrames resize (first :: rest))[j]? = some fj ∧
      fi.Bounds = fj.Bounds ∧
      (∀ x y : Int,
        ¬ (((first :: rest).length : Int) * ((w : Int) + 10) ≤ x ∧
            x < ((first :: rest).length : Int) * ((w : Int) + 10) + (w : Int)) →
        fi.At x y = fj.At x y) ∧
      (resize (uint w) (uint h) imgI = resize (uint w) (uint h) imgJ → fi = fj) ∧
      ((∀ img ∈ first :: rest, img = first) → fi = fj) := by
  obtain ⟨base, _, _, hcf⟩ := createFrames_structure resize first rest w h hw hh
  have hiN : i < rest.length + 1 := by
    have := (List.getElem?_eq_some_iff.mp hi).1
    simpa using this
  have hjN : j < rest.length + 1 := by
    have := (List.getElem?_eq_some_iff.mp hj).1
    simpa using this
  have hN : (((first :: rest).length : Nat) : Int) = (((rest.length + 1 : Nat)) : Int) := by
    simp
  have hsame : resize (uint w) (uint h) imgI = resize (uint w) (uint h) imgJ →
      drawSrc
        ((List.range
            ((first :: rest).map (fun img => resize (uint w) (uint h) img)).length).foldl
          (fun (canvas : Image) (thumbIndex : Nat) =>
            drawSrc canvas
              (Rect ((thumbIndex : Int) * ((w : Int) + margin)) 0
                ((thumbIndex : Int) * ((w : Int) + margin) + (w : Int)) (h : Int))
              (((first :: rest).map (fun img => resize (uint w) (uint h) img)).getD
                thumbIndex nilImage) ⟨0, 0⟩) base)
        (Rect (((rest.length + 1 : Nat) : Int) * ((w : Int) + margin)) 0
          (((rest.length + 1 : Nat) : Int) * ((w : Int) + margin) + (w : Int)) (h : Int))
        (((first :: rest).map (fun img => resize (uint w) (uint h) img)).getD i nilImage)
        ⟨0, 0⟩ =
      drawSrc
        ((List.range
            ((first :: rest).map (fun img => resize (uint w) (uint h) img)).length).foldl
          (fun (canvas : Image) (thumbIndex : Nat) =>
            drawSrc canvas
              (Rect ((thumbIndex : Int) * ((w : Int) + margin)) 0
                ((thumbIndex : Int) * ((w : Int) + margin) + (w : Int)) (h : Int))
              (((first :: rest).map (fun img => resize (uint w) (uint h) img)).getD
                thumbIndex nilImage) ⟨0, 0⟩) base)
        (Rect (((rest.length + 1 : Nat) : Int) * ((w : Int) + margin)) 0
          (((rest.length + 1 : Nat) : Int) * ((w : Int) + margin) + (w : Int)) (h : Int))
        (((first :: rest).map (fun img => resize (uint w) (uint h) img)).getD j nilImage)
        ⟨0, 0⟩ := by
    intro heq
    rw [resized_getD resize _ w h i imgI hi, resized_getD resize _ w h j imgJ hj, heq]
  refine ⟨_, _, by rw [hcf, List.getElem?_map, List.getElem?_range hiN]; rfl,
    by rw [hcf, List.getElem?_map, List.getElem?_range hjN]; rfl, ?_, ?_, hsame, ?_⟩
  · rw [drawSrc_Bounds, drawSrc_Bounds]
  · intro x y hout
    rw [hN] at hout
    rw [drawSrc_At, drawSrc_At, if_neg, if_neg]
    · rintro ⟨h1, _, _⟩
      have h2 := (In_column w h _ x y).mp h1
      exact hout ⟨h2.1, h2.2.1⟩
    · rintro ⟨h1, _, _⟩
      have h2 := (In_column w h _ x y).mp h1
      exact hout ⟨h2.1, h2.2.1⟩
  · intro hall
    apply hsame
    rw [hall imgI (List.getElem?_mem hi), hall imgJ (List.getElem?_mem hj)]

theorem createFrames_frames_agree_witness :
    sampleRed.Bounds.Dx = ((10 : Nat) : Int) ∧ sampleRed.Bounds.Dy = ((10 : Nat) : Int) ∧
    [sampleRed, sampleBlue][0]? = some sampleRed ∧
    [sampleRed, sampleBlue][1]? = some sampleBlue ∧
    ∃ fi fj, (createFrames sampleResize [sampleRed, sampleBlue])[0]? = some fi ∧
      (createFrames sampleResize [sampleRed, sampleBlue])[1]? = some fj ∧
      fi.Bounds = fj.Bounds ∧ fi.At 25 3 = fj.At 25 3 ∧ fi.At 15 3 = fj.At 15 3 := by
  obtain ⟨fi, fj, hfi, hfj, hb, hout, _, _⟩ :=
    createFrames_frames_agree sampleResize sampleRed [sampleBlue] 10 10 (by decide)
      (by decide) 0 1 sampleRed sampleBlue rfl rfl
  exact ⟨by decide, by decide, rfl, rfl, fi, fj, hfi, hfj, hb,
    hout 25 3 (by decide), hout 15 3 (by decide)⟩

/-! ## Loading and the pipeline guard -/

theorem loadImages_foldl (fs : FileSystem) (imageDecode : ImageDecode) (files : List String)
    (acc : List Image) :
    files.foldl (loadImagesStep fs imageDecode) acc =
      acc ++ files.filterMap (decodeFile fs imageDecode) := by
  induction files generalizing acc with
  | nil => simp
  | cons filePath files ih =>
    rw [List.foldl_cons, ih]
    unfold loadImagesStep
    cases hopen : fs.openFile filePath with
    | error e => simp [List.filterMap_cons, decodeFile, hopen]
    | ok file =>
      cases hdec : imageDecode file with
      | error e => simp [List.filterMap_cons, decodeFile, hopen, hdec]
      | ok r =>
        obtain ⟨img, format⟩ := r
        simp [List.filterMap_cons, decodeFile, hopen, hdec]

theorem loadImages_eq (fs : FileSystem) (imageDecode : ImageDecode) (files : List String) :
    loadImages fs imageDecode files = (files.filterMap (decodeFile fs imageDecode), none) := by
  simp [loadImages, loadImages_foldl]

theorem createFrames_length (resize : Nat → Nat → Image → Image) (images : List Image) :
    (createFrames resize images).length = images.length := by
  cases images with
  | nil => rfl
  | cons first rest => simp [createFrames]

/-- C10: `loadImages` never returns an error; its images are those of the paths that open
and decode, in input order (the filter-map of the per-file decode, a sublist of the
per-file results), so there are at most as many images as paths. -/
theorem loadImages_filterMap (fs : FileSystem) (imageDecode : ImageDecode)
    (files : List String) :
    (loadImages fs imageDecode files).2 = none ∧
    (loadImages fs imageDecode files).1 = files.filterMap (decodeFile fs imageDecode) ∧
    ((loadImages fs imageDecode files).1.map some).Sublist
      (files.map (decodeFile fs imageDecode)) ∧
    (loadImages fs imageDecode files).1.length ≤ files.length := by
  rw [loadImages_eq]
  refine ⟨rfl, rfl, ?_, List.length_filterMap_le _ _⟩
  show ((files.filterMap (decodeFile fs imageDecode)).map some).Sublist _
  induction files with
  | nil => simp
  | cons filePath files ih =>
    rw [List.filterMap_cons, List.map_cons]
    cases h : decodeFile fs imageDecode filePath with
    | none => exact List.Sublist.cons _ ih
    | some img => exact List.Sublist.cons₂ _ ih

/-- C9: with n the number of given files that open and decode, `processAndSave` returns
the insufficient-input error and runs no later stage when n < 2, and when n >= 2 it
composes and encodes the n images and returns what encoding and publishing return. -/
theorem processAndSave_guard (env : Env) (files : List String) :
    ((files.filterMap (decodeFile env.fs env.imageDecode)).length < 2 →
      processAndSave env files =
        (some (.insufficientImages 2
          (files.filterMap (decodeFile env.fs env.imageDecode)).length), [])) ∧
    (2 ≤ (files.filterMap (decodeFile env.fs env.imageDecode)).length →
      (∃ tail, (processAndSave env files).2 =
        Call.createFrames (files.filterMap (decodeFile env.fs env.imageDecode)).length ::
        Call.encodeGIF (files.filterMap (decodeFile env.fs env.imageDecode)).length ::
        tail) ∧
      (processAndSave env files).1 =
        (match encodeGIF env.encodeAll (createFrames env.resize
            (files.filterMap (decodeFile env.fs env.imageDecode))) with
          | .error err => some err
          | .ok gifData => env.setClipboardGIF gifData)) := by
  have hload := loadImages_eq env.fs env.imageDecode files
  constructor
  · intro hlt
    have hlt2 : (files.filterMap (decodeFile env.fs env.imageDecode)).length < minImages := hlt
    simp only [processAndSave, hload, hlt2, if_true]
    rfl
  · intro hge
    have hge2 : ¬ (files.filterMap (decodeFile env.fs env.imageDecode)).length < minImages := by
      simp only [minImages]
      omega
    simp only [processAndSave, hload, hge2, if_false, createFrames_length]
    cases henc : encodeGIF env.encodeAll (createFrames env.resize
        (files.filterMap (decodeFile env.fs env.imageDecode))) with
    | error err => exact ⟨⟨_, rfl⟩, rfl⟩
    | ok gifData => exact ⟨⟨_, rfl⟩, rfl⟩

theorem processAndSave_guard_witness :
    (["a.png"].filterMap (decodeFile sampleEnv.fs sampleEnv.imageDecode)).length < 2 ∧
    processAndSave sampleEnv ["a.png"] = (some (.insufficientImages 2 1), []) ∧
    2 ≤ (["a.png", "", "b.png"].filterMap
      (decodeFile sampleEnv.fs sampleEnv.imageDecode)).length ∧
    (∃ tail, (processAndSave sampleEnv ["a.png", "", "b.png"]).2 =
      Call.createFrames 2 :: Call.encodeGIF 2 :: tail) :=
  ⟨by decide,
    (processAndSave_guard sampleEnv ["a.png"]).1 (by decide),
    by decide,
    ((processAndSave_guard sampleEnv ["a.png", "", "b.png"]).2 (by decide)).1⟩

/-! ## The change fingerprint -/

theorem leBytes_length (n x : Nat) : (leBytes n x).length = n := by
  simp [leBytes]

theorem md5Sum_length (msg : List Byte) : (md5Sum msg).length = 16 := by
  simp [md5Sum, leBytes_length]

theorem hexDigit_mem (n : Nat) (h : n < 16) : hexDigit n ∈ "0123456789abcdef".data := by
  interval_cases n <;> decide

theorem hexString_length (bs : List Byte) : (hexString bs).length = 2 * bs.length := by
  show (bs.flatMap (fun b => [hexDigit (b.val / 16), hexDigit (b.val % 16)])).length = _
  induction bs with
  | nil => rfl
  | cons b bs ih =>
    rw [List.flatMap_cons, List.length_append, ih]
    simp only [List.length_cons, List.length_nil]
    omega

theorem hexString_mem (bs : List Byte) (c : Char) (hc : c ∈ (hexString bs).data) :
    c ∈ "0123456789abcdef".data := by
  have hc2 : c ∈ bs.flatMap (fun b => [hexDigit (b.val / 16), hexDigit (b.val % 16)]) := hc
  rw [List.mem_flatMap] at hc2
  obtain ⟨b, _, hb⟩ := hc2
  have hlt := b.isLt
  simp only [List.mem_cons, List.mem_singleton, List.not_mem_nil, or_false] at hb
  rcases hb with rfl | rfl
  · exact hexDigit_mem _ (by omega)
  · exact hexDigit_mem _ (by omega)

theorem calcHash_nonempty (files : List String) (h : files ≠ []) :
    calcHash files = hexString (md5Sum (files.foldl
      (fun (hasher : List Byte) (filePath : String) => hasher ++ stringBytes filePath) [])) := by
  have hl : ¬ files.length = 0 := by
    cases files with
    | nil => exact absurd rfl h
    | cons a l => simp
  simp only [calcHash, hl, if_false]

/-- C13: `calcHash` returns the empty string exactly for the empty path list; for every
non-empty list, also one of empty strings only, the result has 32 characters, each a
lower-case hexadecimal digit. -/
theorem calcHash_empty_iff (files : List String) :
    (calcHash files = "" ↔ files = []) ∧
    calcHash [] = "" ∧
    (files ≠ [] → (calcHash files).length = 32 ∧
      ∀ c ∈ (calcHash files).data, c ∈ "0123456789abcdef".data) := by
  have hne : files ≠ [] → (calcHash files).length = 32 ∧
      ∀ c ∈ (calcHash files).data, c ∈ "0123456789abcdef".data := by
    intro h
    rw [calcHash_nonempty files h]
    refine ⟨?_, fun c hc => hexString_mem _ c hc⟩
    rw [hexString_length, md5Sum_length]
  refine ⟨⟨fun he => ?_, fun he => ?_⟩, rfl, hne⟩
  · by_contra hn
    have h32 := (hne hn).1
    rw [he] at h32
    exact absurd h32 (by decide)
  · rw [he]
    rfl

set_option maxRecDepth 100000 in
theorem calcHash_of_empty_strings :
    calcHash ["", ""] = "d41d8cd98f00b204e9800998ecf8427e" := by decide

theorem calcHash_empty_iff_witness :
    ["", ""] ≠ ([] : List String) ∧
    calcHash ["", ""] = "d41d8cd98f00b204e9800998ecf8427e" ∧
    (calcHash ["", ""]).length = 32 :=
  ⟨by decide, calcHash_of_empty_strings, ((calcHash_empty_iff ["", ""]).2.2 (by decide)).1⟩

theorem stringBytes_append (s t : String) :
    stringBytes (s ++ t) = stringBytes s ++ stringBytes t := by
  simp [stringBytes, List.flatMap_append]

theorem stringBytes_join (files : List String) :
    stringBytes (String.join files) = files.flatMap stringBytes := by
  simp only [stringBytes, String.data_join]
  induction files with
  | nil => rfl
  | cons a l ih =>
    rw [List.map_cons, List.flatten_cons, List.flatMap_append, ih, List.flatMap_cons]
    rfl

theorem hasher_foldl (files : List String) (acc : List Byte) :
    files.foldl (fun (hasher : List Byte) (filePath : String) =>
      hasher ++ stringBytes filePath) acc = acc ++ files.flatMap stringBytes := by
  induction files generalizing acc with
  | nil => simp
  | cons a l ih => rw [List.foldl_cons, ih, List.flatMap_cons, List.append_assoc]

theorem calcHash_eq_join (files : List String) (h : files ≠ []) :
    calcHash files = hexString (md5Sum (stringBytes (String.join files))) := by
  rw [calcHash_nonempty files h, hasher_foldl, stringBytes_join, List.nil_append]

/-- C14: for non-empty path lists `calcHash` is the hexadecimal MD5 digest of the bytes of
the concatenation of the paths, so two non-empty lists with equal concatenations have
equal digests, as ["ab", "c"] and ["a", "bc"]. -/
theorem calcHash_concat (files1 files2 : List String)
    (h1 : files1 ≠ []) (h2 : files2 ≠ [])
    (h : String.join files1 = String.join files2) :
    calcHash files1 = calcHash files2 ∧
    calcHash files1 = hexString (md5Sum (stringBytes (String.join files1))) ∧
    calcHash ["ab", "c"] = calcHash ["a", "bc"] := by
  refine ⟨?_, calcHash_eq_join files1 h1, ?_⟩
  · rw [calcHash_eq_join files1 h1, calcHash_eq_join files2 h2, h]
  · rw [calcHash_eq_join _ (by decide), calcHash_eq_join _ (by decide)]
    rfl

theorem calcHash_concat_witness :
    ["ab", "c"] ≠ ([] : List String) ∧ ["a", "bc"] ≠ ([] : List String) ∧
    String.join ["ab", "c"] = String.join ["a", "bc"] ∧
    calcHash ["ab", "c"] = calcHash ["a", "bc"] :=
  ⟨by decide, by decide, by decide,
    (calcHash_concat ["ab", "c"] ["a", "bc"] (by decide) (by decide) (by decide)).1⟩

set_option maxRecDepth 100000 in
theorem calcHash_a_b : calcHash ["a", "b"] = "187ef4436122d1cc2f40dc2b92f0eba0" := by decide

set_option maxRecDepth 100000 in
theorem calcHash_b_a : calcHash ["b", "a"] = "07159c47ee1b19ae4fb9c40d480856c4" := by decide

/-- C15: `calcHash` is a function of the ordered path list (equal lists give equal
digests) and it is sensitive to the order: ["a", "b"] and ["b", "a"] have different
digests. -/
theorem calcHash_order_sensitive :
    (∀ files1 files2 : List String, files1 = files2 → calcHash files1 = calcHash files2) ∧
    calcHash ["a", "b"] = "187ef4436122d1cc2f40dc2b92f0eba0" ∧
    calcHash ["b", "a"] = "07159c47ee1b19ae4fb9c40d480856c4" ∧
    calcHash ["a", "b"] ≠ calcHash ["b", "a"] := by
  refine ⟨fun files1 files2 h => by rw [h], calcHash_a_b, calcHash_b_a, ?_⟩
  rw [calcHash_a_b, calcHash_b_a]
  decide

/-! ## The polling loop -/

/-- C16: a tick of `monitorClipboard` runs the pipeline exactly when the current
fingerprint differs from the last-seen one and at least 2 files are present; on those
ticks, whatever the pipeline returns, the last-seen fingerprint becomes the current one,
and on every other tick it is unchanged; two consecutive ticks with the same fingerprint
never both run the pipeline. -/
theorem monitorTick_runs_iff (env : Env) (lastClipboardHash : String)
    (imageFiles : List String) (currentHash : String) :
    (((monitorTick env lastClipboardHash (imageFiles, currentHash)).2.isSome = true) ↔
      (currentHash ≠ lastClipboardHash ∧ 2 ≤ imageFiles.length)) ∧
    ((monitorTick env lastClipboardHash (imageFiles, currentHash)).2.isSome = true →
      (monitorTick env lastClipboardHash (imageFiles, currentHash)).1 = currentHash ∧
      (monitorTick env lastClipboardHash (imageFiles, currentHash)).2 =
        some (processAndSave env imageFiles)) ∧
    ((monitorTick env lastClipboardHash (imageFiles, currentHash)).2.isSome = false →
      (monitorTick env lastClipboardHash (imageFiles, currentHash)).1 = lastClipboardHash) ∧
    (∀ nextFiles : List String,
      ¬ ((monitorTick env lastClipboardHash (imageFiles, currentHash)).2.isSome = true ∧
         (monitorTick env (monitorTick env lastClipboardHash (imageFiles, currentHash)).1
            (nextFiles, currentHash)).2.isSome = true)) ∧
    (∀ ticks : List (List String × String),
      monitorClipboard env (ticks ++ [(imageFiles, currentHash)]) =
        ((monitorTick env (monitorClipboard env ticks).1 (imageFiles, currentHash)).1,
         (monitorClipboard env ticks).2 ++
           [(monitorTick env (monitorClipboard env ticks).1 (imageFiles, currentHash)).2])) := by
  have hrun : ∀ ticks : List (List String × String),
      monitorClipboard env (ticks ++ [(imageFiles, currentHash)]) =
        ((monitorTick env (monitorClipboard env ticks).1 (imageFiles, currentHash)).1,
         (monitorClipboard env ticks).2 ++
           [(monitorTick env (monitorClipboard env ticks).1 (imageFiles, currentHash)).2]) := by
    intro ticks
    simp only [monitorClipboard, List.foldl_append, List.foldl_cons, List.foldl_nil]
  by_cases hskip : currentHash = lastClipboardHash ∨ imageFiles.length < minImages
  · have hcond : (currentHash == lastClipboardHash ||
        decide (imageFiles.length < minImages)) = true := by
      simpa using hskip
    have htick : monitorTick env lastClipboardHash (imageFiles, currentHash) =
        (lastClipboardHash, none) := by
      simp only [monitorTick, hcond, if_true]
    rw [htick]
    refine ⟨⟨fun h => absurd h (by simp), fun h => ?_⟩, fun h => absurd h (by simp),
      fun _ => rfl, fun _ h => absurd h.1 (by simp), hrun⟩
    exfalso
    rcases hskip with h1 | h2
    · exact h.1 h1
    · simp only [minImages] at h2
      omega
  · have hcond : (currentHash == lastClipboardHash ||
        decide (imageFiles.length < minImages)) = false := by
      simpa using hskip
    have htick : monitorTick env lastClipboardHash (imageFiles, currentHash) =
        (currentHash, some (processAndSave env imageFiles)) := by
      simp [monitorTick, hcond]
    rw [htick]
    have hnext : ∀ nextFiles : List String,
        monitorTick env currentHash (nextFiles, currentHash) = (currentHash, none) := by
      intro nextFiles
      simp [monitorTick]
    refine ⟨⟨fun _ => ?_, fun _ => rfl⟩, fun _ => ⟨rfl, rfl⟩, fun h => absurd h (by simp),
      fun nextFiles h => ?_, hrun⟩
    · simp only [minImages, not_or, not_lt] at hskip
      exact hskip
    · have h2 := h.2
      simp only [hnext nextFiles] at h2
      exact absurd h2 (by simp)

theorem monitorTick_runs_iff_witness :
    ((monitorTick sampleEnv "" (["a.png", "b.png"], "0123")).2.isSome = true) ∧
    (monitorTick sampleEnv "" (["a.png", "b.png"], "0123")).1 = "0123" ∧
    (monitorTick sampleEnv "0123" (["a.png", "b.png"], "0123")).2.isSome = false :=
  ⟨((monitorTick_runs_iff sampleEnv "" ["a.png", "b.png"] "0123").1).mpr
      ⟨by decide, by decide⟩,
   ((monitorTick_runs_iff sampleEnv "" ["a.png", "b.png"] "0123").2.1
      (((monitorTick_runs_iff sampleEnv "" ["a.png", "b.png"] "0123").1).mpr
        ⟨by decide, by decide⟩)).1,
   by
    cases h : (monitorTick sampleEnv "0123" (["a.png", "b.png"], "0123")).2.isSome
    · rfl
    · exact absurd (((monitorTick_runs_iff sampleEnv "0123" ["a.png", "b.png"] "0123").1).mp h).1
        (by decide)⟩

/-! ## Encoding -/

theorem drawPalettedSrc_Rect (dst : Paletted) (r : Rectangle) (src : Image) (sp : Point) :
    (drawPalettedSrc dst r src sp).Rect = dst.Rect ∧
    (drawPalettedSrc dst r src sp).Palette = dst.Palette := by
  unfold drawPalettedSrc
  simp only
  split <;> exact ⟨rfl, rfl⟩

/-- C12: `encodeGIF` returns an error (and so no bytes) for the empty frame list; for N
frames it passes to the serializer the document `buildAnimation frames`, which has N
paletted frames, frame i being the quantisation of input frame i with the same bounds
and the fixed palette, N delays all equal to 50, and loop count 0. -/
theorem encodeGIF_document (encodeAll : GIF → Except String (List Byte))
    (frames : List Image) :
    encodeGIF encodeAll [] = .error .noFrames ∧
    (frames ≠ [] →
      encodeGIF encodeAll frames =
        (match encodeAll (buildAnimation frames) with
          | .error e => .error (.gifEncodeFailed e)
          | .ok bytes => .ok bytes)) ∧
    (buildAnimation frames).Image.length = frames.length ∧
    (∀ (i : Nat) (frame : Image), frames[i]? = some frame →
      ∃ p, (buildAnimation frames).Image[i]? = some p ∧ p.Rect = frame.Bounds ∧
        p.Palette = generatePalette ∧
        p = drawPalettedSrc (NewPaletted frame.Bounds generatePalette) frame.Bounds frame
          ⟨0, 0⟩) ∧
    (buildAnimation frames).Delay.length = frames.length ∧
    (∀ d ∈ (buildAnimation frames).Delay, d = 50) ∧
    (buildAnimation frames).Delay = List.replicate frames.length 50 ∧
    (buildAnimation frames).LoopCount = 0 := by
  refine ⟨rfl, ?_, ?_, ?_, ?_, ?_, ?_, rfl⟩
  · intro hne
    have hl : ¬ frames.length = 0 := by
      cases frames with
      | nil => exact absurd rfl hne
      | cons a l => simp
    simp only [encodeGIF, hl, if_false]
  · simp [buildAnimation]
  · intro i frame hi
    refine ⟨drawPalettedSrc (NewPaletted frame.Bounds generatePalette) frame.Bounds frame
      ⟨0, 0⟩, ?_, ?_, ?_, rfl⟩
    · simp only [buildAnimation, List.getElem?_map, hi, Option.map_some']
    · rw [(drawPalettedSrc_Rect (NewPaletted frame.Bounds generatePalette) frame.Bounds
        frame ⟨0, 0⟩).1]
      simp only [NewPaletted]
    · rw [(drawPalettedSrc_Rect (NewPaletted frame.Bounds generatePalette) frame.Bounds
        frame ⟨0, 0⟩).2]
      simp only [NewPaletted]
  · simp [buildAnimation]
  · intro d hd
    simp only [buildAnimation, List.mem_map] at hd
    obtain ⟨_, _, rfl⟩ := hd
    rfl
  · simp only [buildAnimation]
    induction frames with
    | nil => rfl
    | cons a l ih =>
      rw [List.map_cons, List.length_cons, List.replicate_succ, ih]
      rfl

theorem encodeGIF_document_witness :
    [sampleRed, sampleBlue] ≠ ([] : List Image) ∧
    encodeGIF (fun _ => .ok []) [sampleRed, sampleBlue] = .ok [] ∧
    (buildAnimation [sampleRed, sampleBlue]).Delay = [50, 50] :=
  ⟨by simp,
    (encodeGIF_document (fun _ => .ok []) [sampleRed, sampleBlue]).2.1 (by simp),
    (encodeGIF_document (fun _ => .ok []) [sampleRed, sampleBlue]).2.2.2.2.2.2.1⟩

/-! ## The batch loader and the unified entry point -/

/-- C11 (the code at the failing input): for a 43808-byte raw file that no container
decoder recognises, `LoadImage` returns the 148 by 148 grey image of `loadRawDataImage`,
while `loadImages` skips the path and returns no image. -/
theorem loadImages_bypasses_LoadImage :
    isRawDataImage sampleRawFS "finger.bmp" = true ∧
    (∃ img format, loadRawDataImage sampleRawFS "finger.bmp" = .ok (img, format) ∧
      LoadImage sampleRawFS magicDecode "finger.bmp" = .ok (img.toImage, format) ∧
      img.toImage.Bounds = ⟨⟨0, 0⟩, ⟨148, 148⟩⟩) ∧
    (loadImages sampleRawFS magicDecode ["finger.bmp"]).1.length = 0 ∧
    (loadImages sampleRawFS magicDecode ["finger.bmp"]).2 = none := by
  obtain ⟨img, format, hload, hrect, _, _, _⟩ :=
    loadRawDataImage_spec sampleRawFS "finger.bmp" 43808
      ⟨"RAW", 148, 148, "uint16", 12⟩
      sampleRawData rfl rfl rfl (by rw [sampleRawData_length]; decide)
  have hraw : isRawDataImage sampleRawFS "finger.bmp" = true := rfl
  refine ⟨hraw, ⟨img, format, hload, ?_, ?_⟩, ?_, rfl⟩
  · simp only [LoadImage, hraw, if_true, hload]
  · show img.Rect = _
    rw [hrect]
    rfl
  · rw [loadImages_eq]
    rfl

/-! ## Distinct colours of the palette -/

theorem paletteEntry_eq_iff (i j : Nat) (hij : i < j) (hj : j < 256) :
    paletteEntry i = paletteEntry j ↔ (i = 0 ∧ j = 216) ∨ (i = 215 ∧ j = 255) := by
  constructor
  · intro h
    unfold paletteEntry at h
    by_cases hi : i < 216
    · by_cases hj2 : j < 216
      · simp only [hi, hj2, if_true, RGBA.mk.injEq, and_true] at h
        omega
      · obtain ⟨k, rfl⟩ : ∃ k, j = 216 + k := ⟨j - 216, by omega⟩
        have hk : k < 40 := by omega
        simp only [hi, hj2, if_true, if_false, RGBA.mk.injEq, and_true,
          Nat.add_sub_cancel_left] at h
        interval_cases k <;> omega
    · have hj2 : ¬ j < 216 := by omega
      simp only [hi, hj2, if_false, RGBA.mk.injEq, and_true] at h
      omega
  · rintro (⟨rfl, rfl⟩ | ⟨rfl, rfl⟩) <;> decide

theorem paletteEntry_injOn (x y : Nat) (hx : x < 256) (hy : y < 256)
    (hx1 : x ≠ 216) (hx2 : x ≠ 255) (hy1 : y ≠ 216) (hy2 : y ≠ 255)
    (h : paletteEntry x = paletteEntry y) : x = y := by
  rcases Nat.lt_trichotomy x y with hlt | heq | hgt
  · have := (paletteEntry_eq_iff x y hlt hy).mp h
    omega
  · exact heq
  · have := (paletteEntry_eq_iff y x hgt hx).mp h.symm
    omega

set_option maxRecDepth 100000 in
theorem range_without_duplicates_length :
    ((List.range 256).filter (fun i => decide (i ≠ 216 ∧ i ≠ 255))).length = 254 := by
  decide

theorem generatePalette_toFinset_card : generatePalette.toFinset.card = 254 := by
  have hnodup : (((List.range 256).filter (fun i => decide (i ≠ 216 ∧ i ≠ 255))).map
      paletteEntry).Nodup := by
    apply List.Nodup.map_on
    · intro x hx y hy hxy
      simp only [List.mem_filter, List.mem_range, decide_eq_true_eq] at hx hy
      exact paletteEntry_injOn x y hx.1 hy.1 hx.2.1 hx.2.2 hy.2.1 hy.2.2 hxy
    · exact (List.nodup_range 256).filter _
  have hlen : (((List.range 256).filter (fun i => decide (i ≠ 216 ∧ i ≠ 255))).map
      paletteEntry).length = 254 := by
    rw [List.length_map]
    exact range_without_duplicates_length
  have hset : generatePalette.toFinset =
      (((List.range 256).filter (fun i => decide (i ≠ 216 ∧ i ≠ 255))).map
        paletteEntry).toFinset := by
    rw [generatePalette_eq_map]
    ext c
    simp only [List.mem_toFinset, List.mem_map, List.mem_filter, List.mem_range,
      decide_eq_true_eq]
    constructor
    · rintro ⟨i, hi, rfl⟩
      by_cases h216 : i = 216
      · subst h216
        exact ⟨0, ⟨by omega, by omega, by omega⟩, by decide⟩
      · by_cases h255 : i = 255
        · subst h255
          exact ⟨215, ⟨by omega, by omega, by omega⟩, by decide⟩
        · exact ⟨i, ⟨hi, h216, h255⟩, rfl⟩
    · rintro ⟨i, ⟨hi, _, _⟩, rfl⟩
      exact ⟨i, hi, rfl⟩
  rw [hset, List.toFinset_card_of_nodup hnodup, hlen]

/-- C17: the palette holds exactly 254 distinct colours; two entries at different indices
are equal only for black (indices 0 and 216) and white (indices 215 and 255). -/
theorem generatePalette_distinct_colours :
    generatePalette.toFinset.card = 254 ∧
    (∀ i j : Nat, i < j → j < 256 →
      (generatePalette[i]? = generatePalette[j]? ↔
        (i = 0 ∧ j = 216) ∨ (i = 215 ∧ j = 255))) ∧
    generatePalette[0]? = some { R := 0, G := 0, B := 0, A := 255 } ∧
    generatePalette[216]? = some { R := 0, G := 0, B := 0, A := 255 } ∧
    generatePalette[215]? = some { R := 255, G := 255, B := 255, A := 255 } ∧
    generatePalette[255]? = some { R := 255, G := 255, B := 255, A := 255 } := by
  refine ⟨generatePalette_toFinset_card, ?_, ?_, ?_, ?_, ?_⟩
  · intro i j hij hj
    rw [generatePalette_getElem? i (by omega), generatePalette_getElem? j hj,
      Option.some.injEq]
    exact paletteEntry_eq_iff i j hij hj
  · rw [generatePalette_getElem? 0 (by omega)]
    rfl
  · rw [generatePalette_getElem? 216 (by omega)]
    rfl
  · rw [generatePalette_getElem? 215 (by omega)]
    rfl
  · rw [generatePalette_getElem? 255 (by omega)]
    rfl

/-! ## Bit range and bounds of the raw pixel loop -/

theorem shiftRight_mod_256 (s k : Nat) :
    (s >>> k) % 256 = (s % 2 ^ (k + 8)) >>> k := by
  have h256 : (256 : Nat) = 2 ^ 8 := by decide
  rw [h256, Nat.shiftRight_eq_div_pow, Nat.shiftRight_eq_div_pow, pow_add,
    Nat.mod_mul_right_div_self]

theorem shiftRight_lt_256 (s k : Nat) (h : s < 2 ^ (k + 8)) : s >>> k < 256 := by
  rw [Nat.shiftRight_eq_div_pow]
  apply Nat.div_lt_of_lt_mul
  have h256 : (256 : Nat) = 2 ^ 8 := by decide
  rw [h256, ← pow_add]
  exact h

theorem rawDataProfiles_bits (size : Nat) (profile : rawDataProfile)
    (h : (size, profile) ∈ rawDataProfiles) :
    (profile.sampleWidth = 16 ∧ profile.bits = 12) ∨
    (profile.sampleWidth = 32 ∧ profile.bits = 16) := by
  simp only [rawDataProfiles, List.mem_cons, Prod.mk.injEq, List.mem_singleton,
    List.not_mem_nil, or_false] at h
  rcases h with ⟨_, rfl⟩ | ⟨_, rfl⟩
  · exact Or.inl ⟨rfl, rfl⟩
  · exact Or.inr ⟨rfl, rfl⟩

/-- C18: each pixel that `loadRawDataImage` writes is (sample >> (bits - 8)) mod 256: its
bit k is bit bits - 8 + k of the sample for k < 8, so it is a function of the sample
modulo 2^bits; a sample below 2^bits gives the shifted value itself, at most 255, and the
bits from position bits upwards are dropped; bits is 12 for the 16-bit profile and 16 for
the 32-bit one. -/
theorem loadRawDataImage_pixel_bits (fs : FileSystem) (filePath : String) (size : Nat)
    (profile : rawDataProfile) (data : List Byte)
    (hprofile : (size, profile) ∈ rawDataProfiles)
    (hstat : fs.stat filePath = .ok size)
    (hread : fs.readFile filePath = .ok data)
    (hlen : data.length = size) :
    ((profile.sampleWidth = 16 ∧ profile.bits = 12) ∨
      (profile.sampleWidth = 32 ∧ profile.bits = 16)) ∧
    ∃ img format, loadRawDataImage fs filePath = .ok (img, format) ∧
      ∀ i, i < profile.width * profile.height →
        ∃ sample pixel, rawValueAt profile data i = .ok sample ∧
          img.Pix[i]? = some pixel ∧
          pixel = (sample >>> (profile.bits - 8)) % 256 ∧
          pixel = (sample % 2 ^ profile.bits) >>> (profile.bits - 8) ∧
          pixel ≤ 255 ∧
          (∀ k, k < 8 → pixel.testBit k = sample.testBit (profile.bits - 8 + k)) ∧
          (∀ k, 8 ≤ k → pixel.testBit k = false) ∧
          (sample < 2 ^ profile.bits → pixel = sample >>> (profile.bits - 8)) := by
  obtain ⟨hlook, hsize⟩ := rawDataProfiles_mem size profile hprofile
  have hbits := rawDataProfiles_bits size profile hprofile
  have hb8 : profile.bits - 8 + 8 = profile.bits := by
    rcases hbits with ⟨_, h⟩ | ⟨_, h⟩ <;> omega
  obtain ⟨img, format, hload, _, _, _, hpix⟩ :=
    loadRawDataImage_spec fs filePath size profile data hstat hlook hread
      (by rw [hlen, hsize])
  refine ⟨hbits, img, format, hload, fun i hi => ?_⟩
  obtain ⟨v, hv, hp⟩ := hpix i hi
  have hmod : (v >>> (profile.bits - 8)) % 256 =
      (v % 2 ^ profile.bits) >>> (profile.bits - 8) := by
    have := shiftRight_mod_256 v (profile.bits - 8)
    rw [hb8] at this
    exact this
  refine ⟨v, (v >>> (profile.bits - 8)) % 256, hv, hp, rfl, hmod,
    by have := Nat.mod_lt (v >>> (profile.bits - 8)) (by decide : 256 > 0); omega,
    ?_, ?_, ?_⟩
  · intro k hk
    have h256 : (256 : Nat) = 2 ^ 8 := by decide
    rw [h256, Nat.testBit_mod_two_pow, Nat.testBit_shiftRight]
    simp [hk]
  · intro k hk
    have h256 : (256 : Nat) = 2 ^ 8 := by decide
    rw [h256, Nat.testBit_mod_two_pow]
    have : ¬ k < 8 := by omega
    simp [this]
  · intro hlt
    apply Nat.mod_eq_of_lt
    apply shiftRight_lt_256
    rw [hb8]
    exact hlt

theorem loadRawDataImage_pixel_bits_witness :
    ((43808, ⟨"RAW", 148, 148, "uint16", 12⟩) ∈ rawDataProfiles) ∧
    sampleRawFS.stat "finger.raw" = .ok 43808 ∧
    sampleRawFS.readFile "finger.raw" = .ok sampleRawData ∧
    sampleRawData.length = 43808 ∧
    ∃ img format, loadRawDataImage sampleRawFS "finger.raw" = .ok (img, format) ∧
      rawValueAt ⟨"RAW", 148, 148, "uint16", 12⟩ sampleRawData 0 = .ok 0x1000 ∧
      2 ^ 12 ≤ 0x1000 ∧
      img.Pix[0]? = some 0 := by
  have hmem : ((43808, ⟨"RAW", 148, 148, "uint16", 12⟩) : Nat × rawDataProfile)
      ∈ rawDataProfiles := by
    simp [rawDataProfiles]
  obtain ⟨_, img, format, hload, hpix⟩ :=
    loadRawDataImage_pixel_bits sampleRawFS "finger.raw" 43808 _ sampleRawData hmem rfl rfl
      sampleRawData_length
  have hsample : rawValueAt ⟨"RAW", 148, 148, "uint16", 12⟩ sampleRawData 0 = .ok 0x1000 := by
    rw [rawValueAt_eq_littleEndianValue _ _ _ (by rw [sampleRawData_length]; decide)]
    rfl
  obtain ⟨sample, pixel, hs, hp, hval, _⟩ := hpix 0 (by decide)
  rw [hsample] at hs
  have hs2 : sample = 0x1000 := (Except.ok.inj hs).symm
  subst hs2
  refine ⟨hmem, rfl, rfl, sampleRawData_length, img, format, hload, hsample, by decide, ?_⟩
  rw [hp, hval]
  decide

/-- C19: for a registered profile and data of exactly the registered length, every access
of the pixel loop of `loadRawDataImage` is in bounds: sample i occupies the bytes from
i * bytesPerSample up to (i + 1) * bytesPerSample, all inside the data, index i is inside
the pixel buffer of width * height bytes, the last sample ends at the end of the data,
and neither a loop step nor the whole call panics. -/
theorem loadRawDataImage_in_bounds (fs : FileSystem) (filePath : String) (size : Nat)
    (profile : rawDataProfile) (data : List Byte)
    (hprofile : (size, profile) ∈ rawDataProfiles)
    (hstat : fs.stat filePath = .ok size)
    (hread : fs.readFile filePath = .ok data)
    (hlen : data.length = size) :
    (∀ i, i < profile.width * profile.height →
      i * (profile.sampleWidth / 8) + profile.sampleWidth / 8 ≤ data.length ∧
      (∃ b, sliceFrom data (i * (profile.sampleWidth / 8)) = .ok b ∧
        profile.sampleWidth / 8 ≤ b.length) ∧
      (∃ v, rawValueAt profile data i = .ok v) ∧
      i < (NewGray (Rect 0 0 profile.width profile.height)).Pix.length ∧
      (∀ pix : List Nat, pix.length = profile.width * profile.height →
        ∃ pix2, rawPixelStep profile data pix i = .ok pix2 ∧ pix2.length = pix.length)) ∧
    (NewGray (Rect 0 0 profile.width profile.height)).Pix.length =
      profile.width * profile.height ∧
    (profile.width * profile.height - 1) * (profile.sampleWidth / 8) +
      profile.sampleWidth / 8 = data.length ∧
    profile.width * profile.height * (profile.sampleWidth / 8) = data.length ∧
    (∃ img format, loadRawDataImage fs filePath = .ok (img, format)) := by
  obtain ⟨hlook, hsize⟩ := rawDataProfiles_mem size profile hprofile
  have htotal : profile.width * profile.height * (profile.sampleWidth / 8) = data.length := by
    rw [hlen, hsize]
  have hpos : 0 < profile.width * profile.height := by
    simp only [rawDataProfiles, List.mem_cons, Prod.mk.injEq, List.mem_singleton,
      List.not_mem_nil, or_false] at hprofile
    rcases hprofile with ⟨_, rfl⟩ | ⟨_, rfl⟩ <;> decide
  obtain ⟨img, format, hload, _⟩ :=
    loadRawDataImage_spec fs filePath size profile data hstat hlook hread (by rw [htotal])
  refine ⟨fun i hi => ?_, NewGray_Pix_length _ _, ?_, htotal, img, format, hload⟩
  · have hle : (i + 1) * (profile.sampleWidth / 8) ≤ data.length := by
      rw [← htotal]
      exact Nat.mul_le_mul_right _ hi
    have hle2 : i * (profile.sampleWidth / 8) + profile.sampleWidth / 8 ≤ data.length := by
      rw [Nat.succ_mul] at hle
      exact hle
    obtain ⟨v, hv⟩ := rawValueAt_ok profile data i hle
    refine ⟨hle2, ⟨data.drop (i * (profile.sampleWidth / 8)), ?_, ?_⟩, ⟨v, hv⟩, ?_, ?_⟩
    · have : i * (profile.sampleWidth / 8) ≤ data.length := by omega
      simp only [sliceFrom, this, if_true]
    · rw [List.length_drop]
      omega
    · rw [NewGray_Pix_length]
      exact hi
    · intro pix hpix
      have hip : i < pix.length := by rw [hpix]; exact hi
      refine ⟨pix.set i (uint8 (v >>> (profile.bits - 8))), ?_, List.length_set _ _ _⟩
      simp only [rawPixelStep, hv]
      simp [bind, Except.bind, pure, Except.pure, hip]
  · rw [← htotal]
    obtain ⟨n, hn⟩ : ∃ n, profile.width * profile.height = n + 1 :=
      ⟨_, (Nat.succ_pred_eq_of_pos hpos).symm⟩
    rw [hn, Nat.add_sub_cancel, Nat.succ_mul]

theorem loadRawDataImage_in_bounds_witness :
    ((43808, ⟨"RAW", 148, 148, "uint16", 12⟩) ∈ rawDataProfiles) ∧
    sampleRawFS.stat "finger.raw" = .ok 43808 ∧
    sampleRawFS.readFile "finger.raw" = .ok sampleRawData ∧
    sampleRawData.length = 43808 ∧
    21903 * (16 / 8) + 16 / 8 ≤ sampleRawData.length ∧
    (∃ img format, loadRawDataImage sampleRawFS "finger.raw" = .ok (img, format)) := by
  have hmem : ((43808, ⟨"RAW", 148, 148, "uint16", 12⟩) : Nat × rawDataProfile)
      ∈ rawDataProfiles := by
    simp [rawDataProfiles]
  have h := loadRawDataImage_in_bounds sampleRawFS "finger.raw" 43808 _ sampleRawData hmem
    rfl rfl sampleRawData_length
  exact ⟨hmem, rfl, rfl, sampleRawData_length, (h.1 21903 (by decide)).1, h.2.2.2.2⟩

/-! ## Disjoint columns and the order of the draw passes -/

theorem Image_ext (a b : Image) (hb : a.Bounds = b.Bounds)
    (hat : ∀ x y, a.At x y = b.At x y) : a = b := by
  cases a with
  | mk ab aat =>
    cases b with
    | mk bb bat =>
      simp only at hb hat
      subst hb
      have : aat = bat := by
        funext x y
        exact hat x y
      subst this
      rfl

/-- Two draws into rectangles without a common point can be exchanged. -/
theorem drawSrc_comm (dst : Image) (r1 r2 : Rectangle) (s1 s2 : Image) (p1 p2 : Point)
    (hdisj : ∀ x y, ¬ ((Point.mk x y).In r1 = true ∧ (Point.mk x y).In r2 = true)) :
    drawSrc (drawSrc dst r1 s1 p1) r2 s2 p2 = drawSrc (drawSrc dst r2 s2 p2) r1 s1 p1 := by
  apply Image_ext
  · simp only [drawSrc_Bounds]
  · intro x y
    simp only [drawSrc_At, drawSrc_Bounds]
    by_cases h1 : (Point.mk x y).In r1 = true
    · have h2 : ¬ (Point.mk x y).In r2 = true := fun h2 => hdisj x y ⟨h1, h2⟩
      simp [h1, h2]
    · simp [h1]

/-- The draw of the active image into column `n` can be moved before the first `m`
iterations of the thumbnail loop, for `m` up to `n`. -/
theorem thumbLoop_comm (resized : List Image) (w h : Nat) (base active : Image) (m n : Nat)
    (hmn : m ≤ n) :
    drawSrc
      ((List.range m).foldl (fun (canvas : Image) (thumbIndex : Nat) =>
        drawSrc canvas
          (Rect ((thumbIndex : Int) * ((w : Int) + margin)) 0
            ((thumbIndex : Int) * ((w : Int) + margin) + (w : Int)) (h : Int))
          (resized.getD thumbIndex nilImage) ⟨0, 0⟩) base)
      (Rect ((n : Int) * ((w : Int) + margin)) 0
        ((n : Int) * ((w : Int) + margin) + (w : Int)) (h : Int)) active ⟨0, 0⟩ =
    (List.range m).foldl (fun (canvas : Image) (thumbIndex : Nat) =>
        drawSrc canvas
          (Rect ((thumbIndex : Int) * ((w : Int) + margin)) 0
            ((thumbIndex : Int) * ((w : Int) + margin) + (w : Int)) (h : Int))
          (resized.getD thumbIndex nilImage) ⟨0, 0⟩)
      (drawSrc base
        (Rect ((n : Int) * ((w : Int) + margin)) 0
          ((n : Int) * ((w : Int) + margin) + (w : Int)) (h : Int)) active ⟨0, 0⟩) := by
  induction m with
  | zero => rfl
  | succ m ih =>
    rw [List.range_succ, List.foldl_append, List.foldl_append]
    simp only [List.foldl_cons, List.foldl_nil]
    rw [drawSrc_comm, ih (Nat.le_of_succ_le hmn)]
    intro x y hxy
    have h1 := (In_column w h _ x y).mp hxy.1
    have h2 := (In_column w h _ x y).mp hxy.2
    have h3 := column_lt w (m : Int) (n : Int) (by exact_mod_cast hmn)
    omega

theorem column_disjoint (w h : Nat) (c c2 : Nat) (hne : c ≠ c2) (x y : Int) :
    ¬ ((Point.mk x y).In
        (Rect ((c : Int) * ((w : Int) + margin)) 0
          ((c : Int) * ((w : Int) + margin) + (w : Int)) (h : Int)) = true ∧
       (Point.mk x y).In
        (Rect ((c2 : Int) * ((w : Int) + margin)) 0
          ((c2 : Int) * ((w : Int) + margin) + (w : Int)) (h : Int)) = true) := by
  rintro ⟨h1, h2⟩
  have h3 := (In_column w h _ x y).mp h1
  have h4 := (In_column w h _ x y).mp h2
  rcases Nat.lt_or_gt_of_ne hne with hlt | hgt
  · have := column_lt w (c : Int) (c2 : Int) (by exact_mod_cast hlt)
    omega
  · have := column_lt w (c2 : Int) (c : Int) (by exact_mod_cast hgt)
    omega

theorem createFrames_eq_activeFirst (resize : Nat → Nat → Image → Image) (first : Image)
    (rest : List Image) (w h : Nat)
    (hw : first.Bounds.Dx = (w : Int)) (hh : first.Bounds.Dy = (h : Int)) :
    createFrames resize (first :: rest) = createFramesActiveFirst resize (first :: rest) := by
  simp only [createFrames, createFramesActiveFirst, hw, hh, List.length_cons,
    Nat.cast_add, Nat.cast_one, add_sub_cancel_right]
  apply List.map_congr_left
  intro i _
  have hcast : (((rest.length + 1 : Nat) : Int)) = (rest.length : Int) + 1 := by
    push_cast
    rfl
  have hlen : ((first :: rest).map (fun img => resize (uint w) (uint h) img)).length
      = rest.length + 1 := by simp
  have key := thumbLoop_comm ((first :: rest).map (fun img => resize (uint w) (uint h) img))
    w h
    (drawUniformSrc
      (NewRGBA (Rect 0 0 ((w : Int) * ((rest.length : Int) + 1 + 1) +
        margin * ((rest.length : Int) + 1)) (h : Int)))
      (NewRGBA (Rect 0 0 ((w : Int) * ((rest.length : Int) + 1 + 1) +
        margin * ((rest.length : Int) + 1)) (h : Int))).Bounds White)
    (((first :: rest).map (fun img => resize (uint w) (uint h) img)).getD i nilImage)
    (rest.length + 1) (rest.length + 1) (le_refl _)
  rw [hcast] at key
  simp only [List.map_cons, List.length_cons, List.length_map] at key ⊢
  exact key

theorem Rect_origin (x1 : Int) (h : Nat) (hx : 0 ≤ x1) :
    Rect 0 0 x1 (h : Int) = ⟨⟨0, 0⟩, ⟨x1, (h : Int)⟩⟩ := by
  have h1 : ¬ ((0 : Int) > x1) := by omega
  have h2 : ¬ ((0 : Int) > (h : Int)) := by omega
  simp [Rect, h1, h2]

/-- C20: for N images and a reference size w by h, the rectangles of the N thumbnail
columns and of the final column are pairwise disjoint and lie inside the canvas, the
right edge of the final column is the canvas width, the draw of the active image leaves
every pixel of a thumbnail column as the thumbnail loop left it, and exchanging the two
draw passes gives the same frames. -/
theorem createFrames_columns_disjoint (resize : Nat → Nat → Image → Image) (first : Image)
    (rest : List Image) (w h : Nat)
    (hw : first.Bounds.Dx = (w : Int)) (hh : first.Bounds.Dy = (h : Int)) :
    (∀ (c c2 : Nat) (x y : Int), c ≤ rest.length + 1 → c2 ≤ rest.length + 1 → c ≠ c2 →
      ¬ ((Point.mk x y).In
          (Rect ((c : Int) * ((w : Int) + margin)) 0
            ((c : Int) * ((w : Int) + margin) + (w : Int)) (h : Int)) = true ∧
         (Point.mk x y).In
          (Rect ((c2 : Int) * ((w : Int) + margin)) 0
            ((c2 : Int) * ((w : Int) + margin) + (w : Int)) (h : Int)) = true)) ∧
    (∀ (c : Nat) (x y : Int), c ≤ rest.length + 1 →
      (Point.mk x y).In
        (Rect ((c : Int) * ((w : Int) + margin)) 0
          ((c : Int) * ((w : Int) + margin) + (w : Int)) (h : Int)) = true →
      (Point.mk x y).In
        (Rect 0 0 ((w : Int) * (((rest.length + 1 : Nat) : Int) + 1) +
          margin * ((rest.length + 1 : Nat) : Int)) (h : Int)) = true) ∧
    (Rect (((rest.length + 1 : Nat) : Int) * ((w : Int) + margin)) 0
        (((rest.length + 1 : Nat) : Int) * ((w : Int) + margin) + (w : Int)) (h : Int)).Max.X =
      (Rect 0 0 ((w : Int) * (((rest.length + 1 : Nat) : Int) + 1) +
        margin * ((rest.length + 1 : Nat) : Int)) (h : Int)).Dx ∧
    (∃ thumbs : Image,
      (∀ (i : Nat) (img : Image), (first :: rest)[i]? = some img →
        (createFrames resize (first :: rest))[i]? =
          some (drawSrc thumbs
            (Rect (((rest.length + 1 : Nat) : Int) * ((w : Int) + margin)) 0
              (((rest.length + 1 : Nat) : Int) * ((w : Int) + margin) + (w : Int)) (h : Int))
            (resize (uint w) (uint h) img) ⟨0, 0⟩)) ∧
      (∀ (active : Image) (c : Nat) (x y : Int), c < rest.length + 1 →
        (Point.mk x y).In
          (Rect ((c : Int) * ((w : Int) + margin)) 0
            ((c : Int) * ((w : Int) + margin) + (w : Int)) (h : Int)) = true →
        (drawSrc thumbs
          (Rect (((rest.length + 1 : Nat) : Int) * ((w : Int) + margin)) 0
            (((rest.length + 1 : Nat) : Int) * ((w : Int) + margin) + (w : Int)) (h : Int))
          active ⟨0, 0⟩).At x y = thumbs.At x y)) ∧
    createFrames resize (first :: rest) = createFramesActiveFirst resize (first :: rest) := by
  have hcanvas : Rect 0 0 ((w : Int) * (((rest.length + 1 : Nat) : Int) + 1) +
      margin * ((rest.length + 1 : Nat) : Int)) (h : Int) =
      ⟨⟨0, 0⟩, ⟨(w : Int) * (((rest.length + 1 : Nat) : Int) + 1) +
        margin * ((rest.length + 1 : Nat) : Int), (h : Int)⟩⟩ := by
    have h0 : (0 : Int) ≤ (w : Int) * (((rest.length + 1 : Nat) : Int) + 1) +
        margin * ((rest.length + 1 : Nat) : Int) := by
      simp only [margin]
      positivity
    exact Rect_origin _ h h0
  refine ⟨?_, ?_, ?_, ?_, createFrames_eq_activeFirst resize first rest w h hw hh⟩
  · intro c c2 x y _ _ hne
    exact column_disjoint w h c c2 hne x y
  · intro c x y hc hin
    have h1 := (In_column w h _ x y).mp hin
    rw [hcanvas]
    simp only [Point.In, Bool.and_eq_true, decide_eq_true_eq, margin]
    have hc0 : (0 : Int) ≤ (c : Int) * ((w : Int) + 10) := by positivity
    have hmono : (c : Int) * ((w : Int) + 10) ≤
        ((rest.length + 1 : Nat) : Int) * ((w : Int) + 10) :=
      mul_le_mul_of_nonneg_right (by exact_mod_cast hc) (by omega)
    refine ⟨⟨⟨by omega, ?_⟩, h1.2.2.1⟩, h1.2.2.2⟩
    linarith
  · rw [hcanvas, Rect_column]
    simp only [Rectangle.Dx, margin]
    ring
  · obtain ⟨base, _, _, hcf⟩ := createFrames_structure resize first rest w h hw hh
    refine ⟨(List.range
        ((first :: rest).map (fun img => resize (uint w) (uint h) img)).length).foldl
        (fun (canvas : Image) (thumbIndex : Nat) =>
          drawSrc canvas
            (Rect ((thumbIndex : Int) * ((w : Int) + margin)) 0
              ((thumbIndex : Int) * ((w : Int) + margin) + (w : Int)) (h : Int))
            (((first :: rest).map (fun img => resize (uint w) (uint h) img)).getD
              thumbIndex nilImage) ⟨0, 0⟩) base, ?_, ?_⟩
    · intro i img hi
      have hiN : i < rest.length + 1 := by
        have := (List.getElem?_eq_some_iff.mp hi).1
        simpa using this
      rw [hcf, List.getElem?_map, List.getElem?_range hiN,
        ← resized_getD resize (first :: rest) w h i img hi]
      rfl
    · intro active c x y hc hin
      rw [drawSrc_At, if_neg]
      rintro ⟨h1, _, _⟩
      exact column_disjoint w h c (rest.length + 1) (by omega) x y ⟨hin, h1⟩

theorem createFrames_columns_disjoint_witness :
    sampleRed.Bounds.Dx = ((10 : Nat) : Int) ∧ sampleRed.Bounds.Dy = ((10 : Nat) : Int) ∧
    createFrames sampleResize [sampleRed, sampleBlue] =
      createFramesActiveFirst sampleResize [sampleRed, sampleBlue] ∧
    (Rect (((1 + 1 : Nat) : Int) * (((10 : Nat) : Int) + margin)) 0
        (((1 + 1 : Nat) : Int) * (((10 : Nat) : Int) + margin) + ((10 : Nat) : Int))
        ((10 : Nat) : Int)).Max.X = 50 :=
  ⟨by decide, by decide,
    (createFrames_columns_disjoint sampleResize sampleRed [sampleBlue] 10 10
      (by decide) (by decide)).2.2.2.2,
    by decide⟩
